import Mathlib

/-!
Verification of the PortfoliAI generation pipeline.

This file gives a shallow embedding of the generation-request/response pipeline
of the repository: the prompt builders and response parsers of
`src/app/api/generate-website/route.ts` (namespace `Route`) and of the
`GeminiClient` class of `src/lib/geminiClient.ts` (namespace `GeminiClient`),
together with theorems settling the specification claims about them.

Strings are modelled as Lean `String`s; the JavaScript regular expressions used
by the source (`/<!DOCTYPE html>[\s\S]*<\/html>/i`,
`/<style[^>]*>([\s\S]*?)<\/style>/gi`, `/<\/?style[^>]*>/gi` and the `script`
variants) are modelled by explicit scanning functions over `List Char`, written
to mirror the exact leftmost/greedy/lazy semantics of those patterns.
-/

set_option maxRecDepth 16384

namespace PortfoliAI

/-- Case-insensitive character comparison, modelling the `i` flag of the
JavaScript regular expressions of the source (all pattern literals are ASCII). -/
def ciEq (a b : Char) : Bool := a.toLower == b.toLower

/-- Case-insensitive test that the pattern `pat` matches at the head of `s`. -/
def ciIsPrefixOf : List Char → List Char → Bool
  | [], _ => true
  | _ :: _, [] => false
  | p :: ps, c :: cs => ciEq p c && ciIsPrefixOf ps cs

/-- The pattern `pat` matches (case-insensitively) at position `p` of `s`. -/
def ciOccursAt (pat s : List Char) (p : Nat) : Prop :=
  ciIsPrefixOf pat (s.drop p) = true

instance (pat s : List Char) (p : Nat) : Decidable (ciOccursAt pat s p) := by
  unfold ciOccursAt; infer_instance

/-- Index of the leftmost case-insensitive occurrence of `pat` in `s`. -/
def ciFindFirst (pat : List Char) : List Char → Option Nat
  | [] => if ciIsPrefixOf pat [] then some 0 else none
  | c :: rest =>
    if ciIsPrefixOf pat (c :: rest) then some 0
    else (ciFindFirst pat rest).map (· + 1)

/-- Index of the rightmost case-insensitive occurrence of `pat` in `s`. -/
def ciFindLast (pat : List Char) : List Char → Option Nat
  | [] => if ciIsPrefixOf pat [] then some 0 else none
  | c :: rest =>
    match ciFindLast pat rest with
    | some j => some (j + 1)
    | none => if ciIsPrefixOf pat (c :: rest) then some 0 else none

def doctypeTag : List Char := "<!DOCTYPE html>".data

def closeHtmlTag : List Char := "</html>".data

/-- Model of `text.match(/<!DOCTYPE html>[\s\S]*<\/html>/i)`: the JavaScript
match starts at the leftmost case-insensitive occurrence of the doctype
literal and, since `[\s\S]*` is greedy, extends to the end of the last
occurrence of `</html>` lying entirely after that doctype literal.  Returns
the full match text when the pattern matches. -/
def htmlMatch (s : List Char) : Option (List Char) :=
  match ciFindFirst doctypeTag s with
  | none => none
  | some i =>
    match ciFindLast closeHtmlTag (s.drop (i + doctypeTag.length)) with
    | none => none
    | some j => some ((s.drop i).take (doctypeTag.length + j + closeHtmlTag.length))

/-- Index of the first `'>'` character, modelling the end of a greedy
`[^>]*>` group. -/
def findGt : List Char → Option Nat
  | [] => none
  | c :: rest => if c = '>' then some 0 else (findGt rest).map (· + 1)

/-- Model of one attempted match of `/<TAG[^>]*>([\s\S]*?)<\/TAG>/i` at the
head of `s` (with `openPat = "<TAG"` and `closePat = "</TAG>"`): the open tag
runs from `openPat` through the first following `'>'` (greedy `[^>]*` cannot
cross a `'>'`), and the lazy body ends at the first following occurrence of
`closePat`.  Returns the length of the full match. -/
def matchBlockAt (openPat closePat s : List Char) : Option Nat :=
  if ciIsPrefixOf openPat s then
    match findGt (s.drop openPat.length) with
    | none => none
    | some g =>
      match ciFindFirst closePat ((s.drop openPat.length).drop (g + 1)) with
      | none => none
      | some j => some (openPat.length + g + 1 + j + closePat.length)
  else none

def globalMatchesAux (openPat closePat : List Char) : Nat → List Char → List (List Char)
  | 0, _ => []
  | _ + 1, [] => []
  | fuel + 1, c :: rest =>
    match matchBlockAt openPat closePat (c :: rest) with
    | some len => (c :: rest).take len :: globalMatchesAux openPat closePat fuel ((c :: rest).drop len)
    | none => globalMatchesAux openPat closePat fuel rest

/-- Model of `str.match(/<TAG[^>]*>([\s\S]*?)<\/TAG>/gi)`: the full texts of
the successive non-overlapping leftmost matches, scanning left to right.  The
fuel `s.length` is always sufficient because every step consumes at least one
character. -/
def globalMatches (openPat closePat s : List Char) : List (List Char) :=
  globalMatchesAux openPat closePat s.length s

/-- Model of one attempted match of `/<\/?TAG[^>]*>/i` at the head of `s`,
for a tag name that does not itself start with `'/'` (so when the greedy
optional `\/?` consumes a `'/'` but the tag then fails, the backtracking
alternative without the `'/'` fails as well).  Returns the length of the
match. -/
def matchStripTagAt (tag s : List Char) : Option Nat :=
  if ciIsPrefixOf ('<' :: '/' :: tag) s then
    (findGt (s.drop (2 + tag.length))).map (fun g => 3 + tag.length + g)
  else if ciIsPrefixOf ('<' :: tag) s then
    (findGt (s.drop (1 + tag.length))).map (fun g => 2 + tag.length + g)
  else none

def stripTagsAux (tag : List Char) : Nat → List Char → List Char
  | 0, s => s
  | _ + 1, [] => []
  | fuel + 1, c :: rest =>
    match matchStripTagAt tag (c :: rest) with
    | some len => stripTagsAux tag fuel ((c :: rest).drop len)
    | none => c :: stripTagsAux tag fuel rest

/-- Model of `m.replace(/<\/?TAG[^>]*>/gi, '')`: delete every successive
leftmost occurrence of the tag pattern. -/
def stripTags (tag s : List Char) : List Char :=
  stripTagsAux tag s.length s

/-- Model of JavaScript `Array.prototype.join(sep)`. -/
def joinSep (sep : String) : List String → String
  | [] => ""
  | [x] => x
  | x :: y :: xs => x ++ sep ++ joinSep sep (y :: xs)

def styleTag : List Char := "style".data

def scriptTag : List Char := "script".data

def styleOpenPat : List Char := "<style".data

def styleClosePat : List Char := "</style>".data

def scriptOpenPat : List Char := "<script".data

def scriptClosePat : List Char := "</script>".data

/-- JavaScript truthiness of a `string` value (the empty string is falsy). -/
def strTruthy (s : String) : Bool := !s.isEmpty

/-- JavaScript truthiness of an optional `string` field (`undefined` and `""`
are falsy). -/
def optTruthy : Option String → Bool
  | none => false
  | some s => strTruthy s

/-- Work experience record (`WorkExperience` of `src/lib/types.ts`, in the
revision with the structured date range used by the generation code). -/
structure WorkExperience where
  position : String
  company : String
  startMonth : String
  startYear : String
  endMonth : String
  endYear : String
  isPresent : Bool
  bullets : List String

/-- Project record (`Project` of `src/lib/types.ts`; `url` and `github` are
optional). -/
structure Project where
  title : String
  description : String
  stack : List String
  url : Option String := none
  github : Option String := none

/-- Education record (`Education` of `src/lib/types.ts`). -/
structure Education where
  school : String
  degree : String
  cgpa : String
  startMonth : String
  startYear : String
  endMonth : String
  endYear : String
  isPresent : Bool

/-- The user profile record (`UserFormData` of `src/lib/types.ts`).  The
`media` field (a list of browser `File` handles used only by the upload UI,
never read by the generation pipeline) is not modelled. -/
structure UserFormData where
  name : String
  title : String
  workHistory : List WorkExperience
  projects : List Project
  skills : List String
  education : List Education
  referenceSite : String

/-- The output record (`GeneratedWebsite` of `src/lib/types.ts`). -/
structure GeneratedWebsite where
  html : String
  css : String
  js : String
  preview : String
deriving DecidableEq

/-- The containment facts the claims state ("the html contains ...") are
expressed as: the pattern occurs as a contiguous substring of the text. -/
def strContains (s pat : String) : Prop := pat.data <:+: s.data

instance (s pat : String) : Decidable (strContains s pat) := by
  unfold strContains; infer_instance

/-! ## The API route (`src/app/api/generate-website/route.ts`) -/

namespace Route

/-- The education section of `buildPrompt` (the `educationText` constant). -/
def educationText (education : List Education) : String :=
  if education.length > 0 then
    joinSep "\n" (education.map (fun edu =>
      let endDate := if edu.isPresent then "Present" else edu.endMonth ++ "/" ++ edu.endYear
      "- " ++ edu.degree ++ " from " ++ edu.school ++ " (" ++ edu.startMonth ++ "/"
        ++ edu.startYear ++ " - " ++ endDate ++ ")"
        ++ (if strTruthy edu.cgpa then " | CGPA: " ++ edu.cgpa else "")))
  else "No education provided yet."

/-- The projects section of `buildPrompt` (the `projectsText` constant). -/
def projectsText (projects : List Project) : String :=
  if projects.length > 0 then
    joinSep "\n" (projects.map (fun p =>
      "- " ++ p.title ++ ": " ++ p.description ++ " [" ++ joinSep ", " p.stack ++ "]"
        ++ (if optTruthy p.url then " - Live: " ++ p.url.getD "" else "")
        ++ (if optTruthy p.github then " - GitHub: " ++ p.github.getD "" else "")))
  else "No projects provided yet."

/-- The work-history section of `buildPrompt` (the `userData.workHistory.map(...)
.join('\n')` interpolation, which has no empty-list placeholder). -/
def workHistoryText (workHistory : List WorkExperience) : String :=
  joinSep "\n" (workHistory.map (fun w =>
    let endDate := if w.isPresent then "Present" else w.endMonth ++ "/" ++ w.endYear
    w.position ++ " at " ++ w.company ++ " (" ++ w.startMonth ++ "/" ++ w.startYear
      ++ " - " ++ endDate ++ ") | " ++ joinSep "; " w.bullets))

/-- `buildPrompt` of the API route. -/
def buildPrompt (userData : UserFormData) : String :=
  "Create a modern, professional portfolio website for " ++ userData.name ++ ".\n\n"
  ++ (if strTruthy userData.referenceSite then
        "Design Inspiration: Study " ++ userData.referenceSite
          ++ " and create a similar aesthetic/layout style adapted for a portfolio."
      else "Use a clean, modern design with professional styling.")
  ++ "\n\nUSER DATA:\nName: " ++ userData.name
  ++ "\nTitle: " ++ userData.title
  ++ "\nSkills: " ++ joinSep ", " userData.skills
  ++ "\n\nExperience:\n" ++ workHistoryText userData.workHistory
  ++ "\n\nProjects:\n" ++ projectsText userData.projects
  ++ "\n\nEducation:\n" ++ educationText userData.education
  ++ "\n\nREQUIREMENTS:\n- Single HTML file with embedded CSS/JS\n- Responsive design (mobile-first)\n- Professional appearance matching reference site style\n- Sections: Header, Hero, About, Skills, Experience, Projects, Education, Contact\n- Modern CSS (Grid/Flexbox), Google Fonts, Font Awesome icons\n- Smooth animations, fast loading\n\nReturn ONLY the complete HTML code from <!DOCTYPE html> to </html>."

/-- `parseGeneratedCode` of the API route: extract the doctype-to-closing-html
span, then all `<style>` and `<script>` block texts (tags stripped, joined with
blank lines), substituting placeholder comments when nothing was extracted. -/
def parseGeneratedCode (text : String) : GeneratedWebsite :=
  match htmlMatch text.data with
  | some htmlCodeData =>
    let htmlCode : String := ⟨htmlCodeData⟩
    let cssMatches := globalMatches styleOpenPat styleClosePat htmlCodeData
    let cssCode : String := joinSep "\n\n" (cssMatches.map (fun m => ⟨stripTags styleTag m⟩))
    let jsMatches := globalMatches scriptOpenPat scriptClosePat htmlCodeData
    let jsCode : String := joinSep "\n\n" (jsMatches.map (fun m => ⟨stripTags scriptTag m⟩))
    { html := htmlCode
      css := if cssCode = "" then "/* CSS is embedded in the HTML file */" else cssCode
      js := if jsCode = "" then "/* JavaScript is embedded in the HTML file */" else jsCode
      preview := htmlCode }
  | none =>
    { html := text
      css := "/* CSS is embedded in the HTML file */"
      js := "/* JavaScript is embedded in the HTML file */"
      preview := text }

end Route

/-! ## The Gemini client (`src/lib/geminiClient.ts`, final revision) -/

namespace GeminiClient

/-- Environment configuration read by `initializeIfNeeded`. -/
structure EnvConfig where
  nextPublicGeminiApiKey : Option String := none
  geminiApiKey : Option String := none

/-- Model of `process.env.NEXT_PUBLIC_GEMINI_API_KEY || process.env.GEMINI_API_KEY
|| null` (JavaScript `||`: an unset variable and the empty string are falsy). -/
def resolveApiKey (env : EnvConfig) : Option String :=
  if optTruthy env.nextPublicGeminiApiKey then env.nextPublicGeminiApiKey
  else if optTruthy env.geminiApiKey then env.geminiApiKey
  else none

/-- Shallow model of the `unknown` value caught by `generateWebsite`: the
fields the diagnostic template inspects.  `details` holds the
`JSON.stringify` rendering of the vendor `details` field when that field is
truthy, and `none` otherwise. -/
structure ErrValue where
  isError : Bool
  message : String
  status : Option Nat := none
  details : Option String := none

/-- An `Error` thrown by the client itself (`new Error(msg)`). -/
def errorOf (msg : String) : ErrValue := { isError := true, message := msg }

/-- Runtime environment facts interpolated into the diagnostic document:
whether `window` is defined, and `new Date().toISOString()`. -/
structure RuntimeCtx where
  windowDefined : Bool
  buildTime : String

/-- The `Status:` line of the diagnostic document (rendered only when the
vendor `status` field is truthy; the number `0` is falsy). -/
def statusLine : Option Nat → String
  | some n => if n ≠ 0 then "<p><strong>Status:</strong> " ++ toString n ++ "</p>" else ""
  | none => ""

/-- The `Details:` line of the diagnostic document. -/
def detailsLine : Option String → String
  | some d => "<p><strong>Details:</strong> " ++ d ++ "</p>"
  | none => ""

/-- The education section of the client `buildPrompt` (note: no empty-list
placeholder in this builder, unlike the projects section). -/
def educationText (education : List Education) : String :=
  joinSep "\n" (education.map (fun edu =>
    let endDate := if edu.isPresent then "Present" else edu.endMonth ++ "/" ++ edu.endYear
    "- " ++ edu.degree ++ " from " ++ edu.school ++ " (" ++ edu.startMonth ++ "/"
      ++ edu.startYear ++ " - " ++ endDate ++ ") - CGPA: " ++ edu.cgpa))

/-- The projects section of the client `buildPrompt`. -/
def projectsText (projects : List Project) : String :=
  if projects.length > 0 then
    joinSep "\n" (projects.map (fun p =>
      "- " ++ p.title ++ ": " ++ p.description ++ " [" ++ joinSep ", " p.stack ++ "]"
        ++ (if optTruthy p.url then " - Live: " ++ p.url.getD "" else "")
        ++ (if optTruthy p.github then " - GitHub: " ++ p.github.getD "" else "")))
  else "No projects provided yet."

/-- The work-history section of the client `buildPrompt` (the
`userData.workHistory.map(...).join('\n')` interpolation; no empty-list
placeholder). -/
def workHistoryText (workHistory : List WorkExperience) : String :=
  joinSep "\n" (workHistory.map (fun w =>
    let endDate := if w.isPresent then "Present" else w.endMonth ++ "/" ++ w.endYear
    "- " ++ w.position ++ " at " ++ w.company ++ " (" ++ w.startMonth ++ "/" ++ w.startYear
      ++ " - " ++ endDate ++ ")\n  Key Achievements: " ++ joinSep "; " w.bullets))

/-- `buildPrompt` of the Gemini client (final revision). -/
def buildPrompt (userData : UserFormData) : String :=
  "\nYou are an expert web designer and developer. Your task is to create a stunning, COMPLETELY UNIQUE personal portfolio website that showcases true creativity and innovation.\n\n🎯 CRITICAL DESIGN MISSION:\n"
  ++ (if strTruthy userData.referenceSite then
        "\nFIRST: Study and analyze this reference website: " ++ userData.referenceSite
          ++ "\n\nCarefully examine:\n- Layout structure and composition\n- Color palette and visual hierarchy  \n- Typography choices and font pairings\n- Navigation style and user flow\n- Visual elements and design patterns\n- Spacing, proportions, and balance\n- Interactive elements and animations\n- Overall aesthetic and mood\n\nTHEN: Create an INSPIRED VARIATION that captures the essence and quality of this design while making it completely personalized for "
          ++ userData.name
          ++ ".\n\nDO NOT copy exactly, but CREATE A MODERN INTERPRETATION that feels cohesive with the reference style while being distinctly unique.\n"
      else
        "\nCreate a cutting-edge, innovative portfolio design that breaks away from typical templates. Focus on creating something that would impress design professionals and stand out in a competitive market.\n")
  ++ "\n\n🚫 WHAT TO AVOID:\n- Generic template-like designs\n- Cookie-cutter layouts you\x27d find on template sites\n- Overused gradient backgrounds unless they match the reference style\n- Basic card layouts without innovation\n- Predictable sections with no creative flair\n\n✨ INNOVATION REQUIREMENTS:\n- Surprise me with creative layout solutions\n- Use unexpected but tasteful design elements\n- Create memorable visual experiences\n- Show exceptional attention to detail\n- Make every section feel intentionally designed\n\n📋 USER INFORMATION:\nName: "
  ++ userData.name
  ++ "\nProfessional Title: "
  ++ userData.title
  ++ "\nSkills: "
  ++ joinSep ", " userData.skills
  ++ "\n\nWork Experience:\n"
  ++ workHistoryText userData.workHistory
  ++ "\n\nProjects Portfolio:\n"
  ++ projectsText userData.projects
  ++ "\n\nEducational Background:\n"
  ++ educationText userData.education
  ++ "\n\n🎨"
  ++ " DESIGN EXECUTION:\n1. **HTML Structure**: Single file with embedded CSS and JavaScript\n2. **Responsive Design**: Flawless mobile-first approach with seamless breakpoints\n3. **Performance**: Optimized loading, smooth animations, efficient code\n4. **Accessibility**: Proper semantic HTML5, ARIA labels, keyboard navigation\n5. **SEO**: Comprehensive meta tags, structured data, optimal HTML structure\n\n🏗️ REQUIRED SECTIONS (Make Each Unique):\n- **Header/Navigation**: Creative, functional navigation that fits the design theme\n- **Hero Section**: Memorable first impression with "
  ++ userData.name
  ++ "\x27s name and "
  ++ userData.title
  ++ "\n- **About/Professional Summary**: Compelling narrative section\n- **Skills Showcase**: Innovative visual representation of technical abilities  \n- **Experience Timeline**: Creative presentation of work history\n- **Projects Gallery**: Engaging showcase of work with clear calls-to-action\n- **Education**: Elegant display of educational achievements\n- **Contact/Connect**: Professional contact information and social links\n\n⚡ TECHNICAL EXCELLENCE:\n- Modern CSS (Grid, Flexbox, Custom Properties)\n- Smooth micro-interactions and purposeful animations\n- Google Fonts integration with thoughtful typography\n- Icon system (Font Awesome or SVG icons)\n- Cross-browser compatibility\n- Optimized performance\n\n🎯 OUTPUT REQUIREMENTS:\nProvide ONLY the complete HTML code starting with <!DOCTYPE html> and ending with </html>.\nNo explanations, no markdown formatting, no comments outside the code.\n\nThe final result should be a portfolio that:\n- Looks professionally designed by a top-tier agency\n- Reflects "
  ++ userData.name
  ++ "\x27s personal brand and "
  ++ userData.title
  ++ " expertise\n- Creates a memorable user experience\n- Demonstrates exceptional web design skills\n- Would stand out among hundreds of other portfolios\n\nCreate something extraordinary that "
  ++ userData.name
  ++ " would be proud to showcase to potential employers or clients.\n"

/-- `parseGeneratedCode` of the Gemini client: extract the doctype-to-closing-
html span (or return the raw text verbatim); `css` and `js` are always the
empty string because the generated CSS/JS stays inline in the HTML. -/
def parseGeneratedCode (text : String) : GeneratedWebsite :=
  let html : String :=
    match htmlMatch text.data with
    | some m => ⟨m⟩
    | none => text
  { html := html, css := "", js := "", preview := html }

/-- The `const html` template literal of `getMockWebsiteWithError`: the
diagnostic fallback document rendered when the generation call fails.
`apiKeyTruthy` models the truthiness of `this.apiKey` at render time. -/
def mockWithErrorHtml (userData : UserFormData) (error : ErrValue)
    (apiKeyTruthy : Bool) (ctx : RuntimeCtx) : String :=
  "<!DOCTYPE html>" ++ "\n<html lang=\"en\">\n<head>\n    <meta charset=\"UTF-8\">\n    <meta name=\"viewport\" content=\"width=device-width, initial-scale=1.0\">\n    <title>"
    ++ userData.name
    ++ " - Portfolio (Debug Mode)</title>\n    <style>\n        body \x7b font-family: Arial, sans-serif; background: #1a1a1a; color: #fff; padding: 20px; line-height: 1.6; \x7d\n        .container \x7b max-width: 800px; margin: 0 auto; \x7d\n        .error \x7b background: #ff4444; padding: 15px; border-radius: 8px; margin: 20px 0; \x7d\n        .debug \x7b background: #333; padding: 15px; border-radius: 8px; margin: 20px 0; font-family: monospace; \x7d\n        .highlight \x7b color: #ffd700; font-weight: bold; \x7d\n        .steps \x7b background: #2a2a2a; padding: 20px; border-radius: 8px; margin: 20px 0; \x7d\n        .steps ol \x7b margin: 10px 0; \x7d\n        .steps li \x7b margin: 8px 0; \x7d\n    </style>\n</head>\n<body>\n    <div class=\"container\">\n        <h1>🔧 Gemini API Debug Mode</h1>\n        <h2>Portfolio for <span class=\"highlight\">"
    ++ userData.name
    ++ "</span></h2>\n        \n        <div class=\"error\">\n            <h3>"
    ++ "❌ API Error Detected"
    ++ "</h3>\n            <p><strong>Error:</strong> "
    ++ (if error.isError then error.message else "Unknown error")
    ++ "</p>\n            "
    ++ statusLine error.status
    ++ "\n            "
    ++ detailsLine error.details
    ++ "\n        </div>\n\n        <div class=\"steps\">\n            <h3>🔧 How to Fix This:</h3>\n            <ol>\n                <li><strong>Production Issue:</strong>\n                    <br>• The NEXT_PUBLIC_GEMINI_API_KEY environment variable should be set in Vercel\n                    <br>• Check Vercel dashboard → Project Settings → Environment Variables\n                    <br>• Ensure the variable is set for Production environment\n                </li>\n                <li><strong>Debug Information:</strong>\n                    <br>• API key available: "
    ++ (if apiKeyTruthy then "Yes" else "No")
    ++ "\n                    <br>• Environment: "
    ++ (if ctx.windowDefined then "Client" else "Server")
    ++ "\n                    <br>• Build time: "
    ++ ctx.buildTime
    ++ "\n                </li>\n            </ol>\n        </div>\n\n        <div class=\"debug\">\n            <h3>📊 Current Data Ready for Generation:</h3>\n            <p>✓ Name: "
    ++ userData.name
    ++ "</p>\n            <p>✓ Title: "
    ++ userData.title
    ++ "</p>\n            <p>✓ Skills: "
    ++ toString userData.skills.length
    ++ " skills</p>\n            <p>✓ Work Experience: "
    ++ toString userData.workHistory.length
    ++ " entries</p>\n            <p>✓ Projects: "
    ++ toString userData.projects.length
    ++ " projects</p>\n            <p>✓ Education: "
    ++ toString userData.education.length
    ++ " entries</p>\n            "
    ++ (if strTruthy userData.referenceSite then
          "<p>✓ Reference Site: " ++ userData.referenceSite ++ "</p>" else "")
    ++ "\n        </div>\n\n        <div class=\"steps\">\n            <p><strong>🎯 Once fixed:</strong> Your unique portfolio will be generated using Gemini 2.5 Flash with all your data!</p>\n        </div>\n    </div>\n</body>\n"
    ++ "</html>"

/-- `getMockWebsiteWithError`: wraps the diagnostic document into a
`GeneratedWebsite` (`return { html, css: '', js: '', preview: html }`). -/
def getMockWebsiteWithError (userData : UserFormData) (error : ErrValue)
    (apiKeyTruthy : Bool) (ctx : RuntimeCtx) : GeneratedWebsite :=
  { html := mockWithErrorHtml userData error apiKeyTruthy ctx
    css := ""
    js := ""
    preview := mockWithErrorHtml userData error apiKeyTruthy ctx }

/-- The `const html` template literal of `getMockWebsite`: the notice document
rendered when no API key is available (no generation call is made on this
path). -/
def mockNoKeyHtml (userData : UserFormData) : String :=
  "<!DOCTYPE html>" ++ "\n<html lang=\"en\">\n<head>\n    <meta charset=\"UTF-8\">\n    <meta name=\"viewport\" content=\"width=device-width, initial-scale=1.0\">\n    <title>"
    ++ userData.name
    ++ " - Portfolio (Preview)</title>\n    <style>\n        * \x7b\n            margin: 0;\n            padding: 0;\n            box-sizing: border-box;\n        \x7d\n        \n        body \x7b\n            font-family: \x27Segoe UI\x27, Tahoma, Geneva, Verdana, sans-serif;\n            background: linear-gradient(135deg, #1a1a2e 0%, #16213e 50%, #0f3460 100%);\n            color: #ffffff;\n            line-height: 1.6;\n            min-height: 100vh;\n            display: flex;\n            align-items: center;\n            justify-content: center;\n        \x7d\n        \n        .container \x7b\n            max-width: 600px;\n            text-align: center;\n            padding: 2rem;\n            background: rgba(255, 255, 255, 0.1);\n            backdrop-filter: blur(10px);\n            border-radius: 20px;\n            border: 1px solid rgba(255, 255, 255, 0.2);\n        \x7d\n        \n        h1 \x7b\n            font-size: 2.5rem;\n            background: linear-gradient(135deg, #667eea 0%, #764ba2 100%);\n            -webkit-background-clip: text;\n            -webkit-text-fill-color: transparent;\n            margin-bottom: 1rem;\n        \x7d\n        \n        h2 \x7b\n            color: #667eea;\n            margin-bottom: 1rem;\n        \x7d\n        \n        p \x7b\n            font-size: 1.1rem;\n            margin-bottom: 1rem;\n            color: rgba(255, 255, 255, 0.9);\n        \x7d\n        \n        .info-box \x7b\n            background: rgba(255, 255, 255, 0.05);\n            padding: 1.5rem;\n            border-radius: 10px;\n            margin: 1.5rem 0;\n            border-left: 4px solid #667eea;\n        \x7d\n        \n        .highlight \x7b\n            color: #ffd700;\n            font-weight: bold;\n        \x7d\n    </style>\n</head>\n<body>\n    <div class=\"container\">\n        <h1>AI Portfolio Generator</h1>\n        <h2>Preview Mode</h2>\n        <p>Your portfolio is ready to be generated for <span class=\"highlight\">"
    ++ userData.name
    ++ "</span></p>\n        \n        <div class=\"info-box\">\n            <p><strong>"
    ++ "API Configuration Issue:"
    ++ "</strong></p>\n            <p>"
    ++ "The Gemini API key is not accessible."
    ++ " This should not happen in production deployment.</p>\n        </div>\n        \n        <p>The AI will create a completely custom website based on:</p>\n        <ul style=\"text-align: left; max-width: 400px; margin: 0 auto;\">\n            <li>✓ Your professional title: "
    ++ userData.title
    ++ "</li>\n            <li>✓ "
    ++ toString userData.skills.length
    ++ " technical skills</li>\n            <li>✓ "
    ++ toString userData.workHistory.length
    ++ " work experience entries</li>\n            <li>✓ "
    ++ toString userData.projects.length
    ++ " project showcases</li>\n            <li>✓ "
    ++ toString userData.education.length
    ++ " education entries</li>\n            "
    ++ (if strTruthy userData.referenceSite then
          "<li>✓ Design inspired by: " ++ userData.referenceSite ++ "</li>" else "")
    ++ "\n        </ul>\n        \n        <div class=\"info-box\">\n            <p><strong>No templates!</strong> Every website is uniquely generated by AI to match your professional brand.</p>\n        </div>\n    </div>\n</body>\n"
    ++ "</html>"

/-- `getMockWebsite`: wraps the notice document into a `GeneratedWebsite`. -/
def getMockWebsite (userData : UserFormData) : GeneratedWebsite :=
  { html := mockNoKeyHtml userData
    css := ""
    js := ""
    preview := mockNoKeyHtml userData }

/-- The possible observable outcomes of the single external model call made by
`generateWebsite` (when a key is configured): the call itself threw, the
awaited response was falsy, the response carried no candidates, or a response
text was produced (then checked for minimum length inside the `try`). -/
inductive ApiOutcome where
  | apiError (error : ErrValue)
  | noResponse
  | noCandidates
  | response (text : String)

/-- The message of the `Error` thrown for an empty or too-short response. -/
def responseTooShortMessage (text : String) : String :=
  "Response too short or empty from Gemini API. Length: " ++ toString text.length
    ++ ", Content: \"" ++ text ++ "\""

/-- `generateWebsite`: if no API key resolves, return the mock notice without
calling the model; otherwise perform the call and parse the response,
converting every failure (thrown error, falsy response, zero candidates,
too-short text) into the diagnostic fallback document via the `catch` block.
The function is total: no outcome makes it throw. -/
def generateWebsite (env : EnvConfig) (ctx : RuntimeCtx) (userData : UserFormData)
    (outcome : ApiOutcome) : GeneratedWebsite :=
  match resolveApiKey env with
  | none => getMockWebsite userData
  | some _ =>
    match outcome with
    | .apiError e => getMockWebsiteWithError userData e true ctx
    | .noResponse =>
      getMockWebsiteWithError userData
        (errorOf "No response received from Gemini API") true ctx
    | .noCandidates =>
      getMockWebsiteWithError userData
        (errorOf "No candidates in Gemini response - possible content policy violation") true ctx
    | .response t =>
      if t.length < 100 then
        getMockWebsiteWithError userData (errorOf (responseTooShortMessage t)) true ctx
      else parseGeneratedCode t

end GeminiClient

/-! ## Auxiliary predicates and concrete example inputs used by the claims -/

/-- The first seven characters of a closing style tag. -/
def styleCloseStart : List Char := "</style".data

/-- The first eight characters of a closing script tag. -/
def scriptCloseStart : List Char := "</script".data

/-- The text contains a doctype-to-closing-html span: an occurrence of the
doctype literal followed (disjointly) by an occurrence of `</html>`, both
case-insensitive. -/
def hasDoctypeSpan (s : List Char) : Prop :=
  ∃ p q, ciOccursAt doctypeTag s p ∧ ciOccursAt closeHtmlTag s q ∧
    p + doctypeTag.length ≤ q

/-- The example profile of the specification scenario. -/
def janeDoe : UserFormData :=
  { name := "Jane Doe", title := "Engineer", workHistory := [], projects := []
    skills := ["Go", "Rust"], education := [], referenceSite := "" }

/-- Environment with no credential configured. -/
def emptyEnv : GeminiClient.EnvConfig := {}

/-- Environment with a credential configured. -/
def keyedEnv : GeminiClient.EnvConfig := { nextPublicGeminiApiKey := some "test-key" }

/-- A concrete runtime context. -/
def serverCtx : GeminiClient.RuntimeCtx :=
  { windowDefined := false, buildTime := "2025-01-01T00:00:00.000Z" }

/-- A 120-character model response containing no doctype declaration. -/
def plainLongResponse : String :=
  "aaaaaaaaaaaaaaaaaaaaaaaaaaaaaaaaaaaaaaaaaaaaaaaaaaaaaaaaaaaaaaaaaaaaaaaaaaaaaaaaaaaaaaaaaaaaaaaaaaaaaaaaaaaaaaaaaaaaaa"

/-- A response whose unique style block has empty inner text. -/
def emptyStyleResponse : String :=
  "<!DOCTYPE html><style></style><script>window.x = 1;</script></html>"

/-- A response with no style and no script blocks. -/
def noBlocksResponse : String := "<!DOCTYPE html><p>hello</p></html>"

/-- A response containing a doctype-to-closing-html span surrounded by noise. -/
def spannedResponse : String := "noise<!DOCTYPE html>content</html>trailer"

/-- A response for the extraction example: one style block and one script
block inside the doctype span. -/
def blocksResponse : String :=
  "<!DOCTYPE html><head><style>body: red</style></head><body><script>f(2)</script></body></html>"

/-- Outcomes the `try` block of `generateWebsite` converts into the diagnostic
fallback: a thrown call error, a falsy response, zero candidates, or a
response text shorter than 100 characters. -/
def isFailureOutcome : GeminiClient.ApiOutcome → Bool
  | .response t => t.length < 100
  | _ => true

/-- The string begins (case-insensitively) with the given pattern. -/
def ciStartsWith (s : String) (pat : List Char) : Prop :=
  ciIsPrefixOf pat s.data = true

instance (s : String) (pat : List Char) : Decidable (ciStartsWith s pat) := by
  unfold ciStartsWith; infer_instance

/-- The string ends (case-insensitively) with the given pattern. -/
def ciEndsWith (s : String) (pat : List Char) : Prop :=
  pat.length ≤ s.data.length ∧
    ciIsPrefixOf pat (s.data.drop (s.data.length - pat.length)) = true

instance (s : String) (pat : List Char) : Decidable (ciEndsWith s pat) := by
  unfold ciEndsWith; infer_instance

/-! ## Lemmas about the case-insensitive primitives -/

theorem ciEq_refl (c : Char) : ciEq c c = true := by
  simp [ciEq]

theorem ciIsPrefixOf_append_self (pat r : List Char) :
    ciIsPrefixOf pat (pat ++ r) = true := by
  induction pat with
  | nil => rfl
  | cons p ps ih => simp [ciIsPrefixOf, ciEq_refl, ih]

theorem ciIsPrefixOf_length_le {pat s : List Char}
    (h : ciIsPrefixOf pat s = true) : pat.length ≤ s.length := by
  induction pat generalizing s with
  | nil => simp
  | cons p ps ih =>
    cases s with
    | nil => simp [ciIsPrefixOf] at h
    | cons c cs =>
      simp only [ciIsPrefixOf, Bool.and_eq_true] at h
      simpa using ih h.2

theorem ciIsPrefixOf_append_left {pat a : List Char}
    (h : ciIsPrefixOf pat a = true) (b : List Char) :
    ciIsPrefixOf pat (a ++ b) = true := by
  induction pat generalizing a with
  | nil => rfl
  | cons p ps ih =>
    cases a with
    | nil => simp [ciIsPrefixOf] at h
    | cons c cs =>
      simp only [ciIsPrefixOf, Bool.and_eq_true] at h
      simpa [ciIsPrefixOf, h.1] using ih h.2

theorem ciIsPrefixOf_of_take {pat t : List Char} {n : Nat}
    (h : ciIsPrefixOf pat (t.take n) = true) : ciIsPrefixOf pat t = true := by
  induction pat generalizing t n with
  | nil => rfl
  | cons p ps ih =>
    cases t with
    | nil => simp [List.take_nil, ciIsPrefixOf] at h
    | cons c cs =>
      cases n with
      | zero => simp [ciIsPrefixOf] at h
      | succ n =>
        simp only [List.take_succ_cons, ciIsPrefixOf, Bool.and_eq_true] at h
        simpa [ciIsPrefixOf, h.1] using ih h.2

theorem ciIsPrefixOf_nil_of_ne {pat : List Char} (h : pat ≠ []) :
    ciIsPrefixOf pat [] = false := by
  cases pat with
  | nil => exact absurd rfl h
  | cons p ps => rfl

theorem ciOccursAt_shift {pat rest : List Char} {c : Char} {p : Nat} :
    ciOccursAt pat (c :: rest) (p + 1) ↔ ciOccursAt pat rest p := by
  simp [ciOccursAt]

theorem ciOccursAt_drop {pat s : List Char} {k q : Nat} :
    ciOccursAt pat (s.drop k) q ↔ ciOccursAt pat s (k + q) := by
  unfold ciOccursAt
  rw [List.drop_drop]

theorem ciOccursAt_append_left {pat a : List Char} {p : Nat}
    (h : ciOccursAt pat a p) (b : List Char) : ciOccursAt pat (a ++ b) p := by
  unfold ciOccursAt at h ⊢
  rw [List.drop_append_eq_append_drop]
  exact ciIsPrefixOf_append_left h _

theorem ciOccursAt_of_isPref {pat big : List Char}
    (hp : ciIsPrefixOf pat big = true) : ciOccursAt pat big 0 := by
  simpa [ciOccursAt]

theorem ciFindFirst_nil (pat : List Char) :
    ciFindFirst pat [] = if ciIsPrefixOf pat [] then some 0 else none := rfl

theorem ciFindFirst_cons (pat : List Char) (c : Char) (rest : List Char) :
    ciFindFirst pat (c :: rest) =
      if ciIsPrefixOf pat (c :: rest) then some 0
      else (ciFindFirst pat rest).map (· + 1) := rfl

theorem ciFindLast_nil (pat : List Char) :
    ciFindLast pat [] = if ciIsPrefixOf pat [] then some 0 else none := rfl

theorem ciFindLast_cons_some {pat : List Char} {c : Char} {rest : List Char} {j : Nat}
    (hr : ciFindLast pat rest = some j) :
    ciFindLast pat (c :: rest) = some (j + 1) := by
  unfold ciFindLast
  rw [hr]

theorem ciFindLast_cons_none {pat : List Char} {c : Char} {rest : List Char}
    (hr : ciFindLast pat rest = none) :
    ciFindLast pat (c :: rest) =
      if ciIsPrefixOf pat (c :: rest) then some 0 else none := by
  unfold ciFindLast
  rw [hr]

theorem ciFindFirst_some_occ {pat s : List Char} {i : Nat}
    (h : ciFindFirst pat s = some i) : ciOccursAt pat s i := by
  induction s generalizing i with
  | nil =>
    rw [ciFindFirst_nil] at h
    by_cases hp : ciIsPrefixOf pat [] = true
    · rw [if_pos hp] at h
      cases h
      exact ciOccursAt_of_isPref hp
    · rw [if_neg hp] at h
      cases h
  | cons c rest ih =>
    rw [ciFindFirst_cons] at h
    by_cases hp : ciIsPrefixOf pat (c :: rest) = true
    · rw [if_pos hp] at h
      cases h
      exact ciOccursAt_of_isPref hp
    · rw [if_neg hp] at h
      rcases Option.map_eq_some'.mp h with ⟨i', hi', rfl⟩
      exact ciOccursAt_shift.mpr (ih hi')

theorem ciFindFirst_some_min {pat s : List Char} {i : Nat}
    (h : ciFindFirst pat s = some i) : ∀ p, p < i → ¬ ciOccursAt pat s p := by
  induction s generalizing i with
  | nil =>
    rw [ciFindFirst_nil] at h
    by_cases hp : ciIsPrefixOf pat [] = true
    · rw [if_pos hp] at h
      cases h
      omega
    · rw [if_neg hp] at h
      cases h
  | cons c rest ih =>
    rw [ciFindFirst_cons] at h
    by_cases hp : ciIsPrefixOf pat (c :: rest) = true
    · rw [if_pos hp] at h
      cases h
      omega
    · rw [if_neg hp] at h
      rcases Option.map_eq_some'.mp h with ⟨i', hi', rfl⟩
      intro p hlt
      cases p with
      | zero =>
        intro hocc
        exact hp (by simpa [ciOccursAt] using hocc)
      | succ p =>
        intro hocc
        exact ih hi' p (by omega) (ciOccursAt_shift.mp hocc)

theorem ciFindFirst_none {pat s : List Char}
    (h : ciFindFirst pat s = none) : ∀ p, ¬ ciOccursAt pat s p := by
  induction s with
  | nil =>
    rw [ciFindFirst_nil] at h
    by_cases hp : ciIsPrefixOf pat [] = true
    · rw [if_pos hp] at h
      cases h
    · rw [if_neg hp] at h
      intro p hocc
      exact hp (by simpa [ciOccursAt, List.drop_nil] using hocc)
  | cons c rest ih =>
    rw [ciFindFirst_cons] at h
    by_cases hp : ciIsPrefixOf pat (c :: rest) = true
    · rw [if_pos hp] at h
      cases h
    · rw [if_neg hp] at h
      have hrest : ciFindFirst pat rest = none := by
        cases hr : ciFindFirst pat rest with
        | none => rfl
        | some j => rw [hr] at h; cases h
      intro p
      cases p with
      | zero =>
        intro hocc
        exact hp (by simpa [ciOccursAt] using hocc)
      | succ p =>
        intro hocc
        exact ih hrest p (ciOccursAt_shift.mp hocc)

theorem ciFindFirst_eq_some_of_occ {pat s : List Char} {i : Nat}
    (hocc : ciOccursAt pat s i) (hmin : ∀ p, p < i → ¬ ciOccursAt pat s p) :
    ciFindFirst pat s = some i := by
  cases hf : ciFindFirst pat s with
  | none => exact absurd hocc (ciFindFirst_none hf i)
  | some i' =>
    have h1 : ¬ i' < i := fun hlt => hmin i' hlt (ciFindFirst_some_occ hf)
    have h2 : ¬ i < i' := fun hlt => ciFindFirst_some_min hf i hlt hocc
    have : i' = i := by omega
    rw [this]

theorem ciFindFirst_isSome_of_occ {pat s : List Char} {p : Nat}
    (h : ciOccursAt pat s p) : ∃ i, ciFindFirst pat s = some i ∧ i ≤ p := by
  cases hf : ciFindFirst pat s with
  | none => exact absurd h (ciFindFirst_none hf p)
  | some i =>
    refine ⟨i, rfl, ?_⟩
    by_contra hlt
    exact ciFindFirst_some_min hf p (by omega) h

theorem ciFindLast_none {pat s : List Char}
    (h : ciFindLast pat s = none) : ∀ q, ¬ ciOccursAt pat s q := by
  induction s with
  | nil =>
    rw [ciFindLast_nil] at h
    by_cases hp : ciIsPrefixOf pat [] = true
    · rw [if_pos hp] at h
      cases h
    · rw [if_neg hp] at h
      intro q hocc
      exact hp (by simpa [ciOccursAt, List.drop_nil] using hocc)
  | cons c rest ih =>
    cases hr : ciFindLast pat rest with
    | some j => rw [ciFindLast_cons_some hr] at h; cases h
    | none =>
      rw [ciFindLast_cons_none hr] at h
      by_cases hp : ciIsPrefixOf pat (c :: rest) = true
      · rw [if_pos hp] at h
        cases h
      · intro q
        cases q with
        | zero =>
          intro hocc
          exact hp (by simpa [ciOccursAt] using hocc)
        | succ q =>
          intro hocc
          exact ih hr q (ciOccursAt_shift.mp hocc)

theorem ciFindLast_some_occ {pat s : List Char} {j : Nat}
    (h : ciFindLast pat s = some j) : ciOccursAt pat s j := by
  induction s generalizing j with
  | nil =>
    rw [ciFindLast_nil] at h
    by_cases hp : ciIsPrefixOf pat [] = true
    · rw [if_pos hp] at h
      cases h
      exact ciOccursAt_of_isPref hp
    · rw [if_neg hp] at h
      cases h
  | cons c rest ih =>
    cases hr : ciFindLast pat rest with
    | some j' =>
      rw [ciFindLast_cons_some hr] at h
      cases h
      exact ciOccursAt_shift.mpr (ih hr)
    | none =>
      rw [ciFindLast_cons_none hr] at h
      by_cases hp : ciIsPrefixOf pat (c :: rest) = true
      · rw [if_pos hp] at h
        cases h
        exact ciOccursAt_of_isPref hp
      · rw [if_neg hp] at h
        cases h

theorem ciFindLast_some_max {pat s : List Char} {j : Nat} (hpat : pat ≠ [])
    (h : ciFindLast pat s = some j) : ∀ q, j < q → ¬ ciOccursAt pat s q := by
  induction s generalizing j with
  | nil =>
    rw [ciFindLast_nil] at h
    by_cases hp : ciIsPrefixOf pat [] = true
    · rw [ciIsPrefixOf_nil_of_ne hpat] at hp
      cases hp
    · rw [if_neg hp] at h
      cases h
  | cons c rest ih =>
    cases hr : ciFindLast pat rest with
    | some j' =>
      rw [ciFindLast_cons_some hr] at h
      cases h
      intro q hq
      cases q with
      | zero => omega
      | succ q =>
        intro hocc
        exact ih hr q (by omega) (ciOccursAt_shift.mp hocc)
    | none =>
      rw [ciFindLast_cons_none hr] at h
      by_cases hp : ciIsPrefixOf pat (c :: rest) = true
      · rw [if_pos hp] at h
        cases h
        intro q hq
        cases q with
        | zero => omega
        | succ q =>
          intro hocc
          exact ciFindLast_none hr q (ciOccursAt_shift.mp hocc)
      · rw [if_neg hp] at h
        cases h

theorem ciFindLast_isSome_of_occ {pat s : List Char} {q : Nat} (hpat : pat ≠ [])
    (h : ciOccursAt pat s q) : ∃ j, ciFindLast pat s = some j ∧ q ≤ j := by
  cases hf : ciFindLast pat s with
  | none => exact absurd h (ciFindLast_none hf q)
  | some j =>
    refine ⟨j, rfl, ?_⟩
    by_contra hlt
    exact ciFindLast_some_max hpat hf q (by omega) h

theorem ciFindLast_eq_some_of_occ {pat s : List Char} {j : Nat} (hpat : pat ≠ [])
    (hocc : ciOccursAt pat s j) (hmax : ∀ q, j < q → ¬ ciOccursAt pat s q) :
    ciFindLast pat s = some j := by
  cases hf : ciFindLast pat s with
  | none => exact absurd hocc (ciFindLast_none hf j)
  | some j' =>
    have h1 : ¬ j < j' := fun hlt => hmax j' hlt (ciFindLast_some_occ hf)
    have h2 : ¬ j' < j := fun hlt => ciFindLast_some_max hpat hf j hlt hocc
    have : j' = j := by omega
    rw [this]

/-! ## Lemmas about the doctype-to-closing-html matcher -/

theorem doctypeTag_ne_nil : doctypeTag ≠ [] := by decide

theorem closeHtmlTag_ne_nil : closeHtmlTag ≠ [] := by decide

/-- When the doctype matcher succeeds, the match starts at the first doctype
occurrence and ends at the end of the last closing-html occurrence lying
after that doctype. -/
theorem htmlMatch_some_spec {s m : List Char} (h : htmlMatch s = some m) :
    ∃ i j, ciOccursAt doctypeTag s i ∧ (∀ p, p < i → ¬ ciOccursAt doctypeTag s p) ∧
      ciOccursAt closeHtmlTag s j ∧ i + doctypeTag.length ≤ j ∧
      (∀ q, i + doctypeTag.length ≤ q → ciOccursAt closeHtmlTag s q → q ≤ j) ∧
      m = (s.drop i).take (j + closeHtmlTag.length - i) := by
  cases hf : ciFindFirst doctypeTag s with
  | none =>
    simp only [htmlMatch, hf] at h
    exact Option.noConfusion h
  | some i =>
    cases hl : ciFindLast closeHtmlTag (s.drop (i + doctypeTag.length)) with
    | none =>
      simp only [htmlMatch, hf, hl] at h
      exact Option.noConfusion h
    | some j' =>
      simp only [htmlMatch, hf, hl, Option.some.injEq] at h
      subst h
      refine ⟨i, i + doctypeTag.length + j', ciFindFirst_some_occ hf,
        ciFindFirst_some_min hf, ?_, by omega, ?_, ?_⟩
      · have := ciFindLast_some_occ hl
        rwa [ciOccursAt_drop] at this
      · intro q hq hocc
        have hocc' : ciOccursAt closeHtmlTag (s.drop (i + doctypeTag.length))
            (q - (i + doctypeTag.length)) := by
          rw [ciOccursAt_drop]
          have heq : i + doctypeTag.length + (q - (i + doctypeTag.length)) = q := by omega
          rw [heq]; exact hocc
        by_contra hgt
        exact ciFindLast_some_max closeHtmlTag_ne_nil hl _ (by omega) hocc'
      · congr 1
        omega

theorem htmlMatch_none_not_span {s : List Char} (h : htmlMatch s = none) :
    ¬ hasDoctypeSpan s := by
  rintro ⟨p, q, hp, hq, hle⟩
  cases hf : ciFindFirst doctypeTag s with
  | none => exact ciFindFirst_none hf p hp
  | some i =>
    cases hl : ciFindLast closeHtmlTag (s.drop (i + doctypeTag.length)) with
    | some j =>
      simp only [htmlMatch, hf, hl] at h
      exact Option.noConfusion h
    | none =>
      have hip : i ≤ p := by
        by_contra hgt
        exact ciFindFirst_some_min hf p (by omega) hp
      have hocc' : ciOccursAt closeHtmlTag (s.drop (i + doctypeTag.length))
          (q - (i + doctypeTag.length)) := by
        rw [ciOccursAt_drop]
        have heq : i + doctypeTag.length + (q - (i + doctypeTag.length)) = q := by omega
        rw [heq]; exact hq
      exact ciFindLast_none hl _ hocc'

theorem htmlMatch_isSome_of_span {s : List Char} (h : hasDoctypeSpan s) :
    ∃ m, htmlMatch s = some m := by
  rcases h with ⟨p, q, hp, hq, hle⟩
  rcases ciFindFirst_isSome_of_occ hp with ⟨i, hf, hip⟩
  have hocc' : ciOccursAt closeHtmlTag (s.drop (i + doctypeTag.length))
      (q - (i + doctypeTag.length)) := by
    rw [ciOccursAt_drop]
    have heq : i + doctypeTag.length + (q - (i + doctypeTag.length)) = q := by omega
    rw [heq]; exact hq
  rcases ciFindLast_isSome_of_occ closeHtmlTag_ne_nil hocc' with ⟨j, hl, _⟩
  refine ⟨(s.drop i).take (doctypeTag.length + j + closeHtmlTag.length), ?_⟩
  simp only [htmlMatch, hf, hl]

theorem htmlMatch_eq_none_of_not_span {s : List Char} (h : ¬ hasDoctypeSpan s) :
    htmlMatch s = none := by
  cases hm : htmlMatch s with
  | none => rfl
  | some m =>
    rcases htmlMatch_some_spec hm with ⟨i, j, hi, _, hj, hle, _, _⟩
    exact absurd ⟨i, j, hi, hj, hle⟩ h

/-- Round-trip stability: a text that starts with the doctype literal and ends
with a closing html tag is matched in full. -/
theorem htmlMatch_self {d : List Char}
    (h1 : ciIsPrefixOf doctypeTag d = true)
    (h2 : ciIsPrefixOf closeHtmlTag (d.drop (d.length - closeHtmlTag.length)) = true)
    (h3 : doctypeTag.length + closeHtmlTag.length ≤ d.length) :
    htmlMatch d = some d := by
  have hf : ciFindFirst doctypeTag d = some 0 :=
    ciFindFirst_eq_some_of_occ (ciOccursAt_of_isPref h1)
      (fun p hp => absurd hp (Nat.not_lt_zero p))
  have hoccend : ciOccursAt closeHtmlTag d (d.length - closeHtmlTag.length) := h2
  have hocc' : ciOccursAt closeHtmlTag (d.drop doctypeTag.length)
      (d.length - doctypeTag.length - closeHtmlTag.length) := by
    rw [ciOccursAt_drop]
    have heq : doctypeTag.length + (d.length - doctypeTag.length - closeHtmlTag.length)
        = d.length - closeHtmlTag.length := by omega
    rw [heq]; exact hoccend
  have hmax : ∀ q, d.length - doctypeTag.length - closeHtmlTag.length < q →
      ¬ ciOccursAt closeHtmlTag (d.drop doctypeTag.length) q := by
    intro q hq hocc
    have hlen := ciIsPrefixOf_length_le hocc
    rw [List.length_drop, List.length_drop] at hlen
    have hC : 0 < closeHtmlTag.length := by decide
    omega
  have hl : ciFindLast closeHtmlTag (d.drop (0 + doctypeTag.length))
      = some (d.length - doctypeTag.length - closeHtmlTag.length) := by
    have hz : (0 : Nat) + doctypeTag.length = doctypeTag.length := by omega
    rw [hz]
    exact ciFindLast_eq_some_of_occ closeHtmlTag_ne_nil hocc' hmax
  simp only [htmlMatch, hf, hl, Option.some.injEq]
  have hidx : doctypeTag.length + (d.length - doctypeTag.length - closeHtmlTag.length)
      + closeHtmlTag.length = d.length := by omega
  rw [List.drop_zero, hidx, List.take_length]

/-! ## Lemmas about the block scanner and the tag stripper -/

theorem matchBlockAt_nil (openPat closePat : List Char) :
    matchBlockAt openPat closePat [] = none := by
  cases openPat <;> rfl

theorem matchBlockAt_none_of_not_open {openPat closePat s : List Char}
    (h : ciIsPrefixOf openPat s = false) :
    matchBlockAt openPat closePat s = none := by
  simp [matchBlockAt, h]

theorem matchBlockAt_some_open {openPat closePat s : List Char} {len : Nat}
    (h : matchBlockAt openPat closePat s = some len) :
    ciIsPrefixOf openPat s = true := by
  by_cases hp : ciIsPrefixOf openPat s = true
  · exact hp
  · rw [matchBlockAt_none_of_not_open (by simpa using hp)] at h
    exact Option.noConfusion h

theorem globalMatchesAux_nil_of_none {openPat closePat s : List Char}
    (h : ∀ p, matchBlockAt openPat closePat (s.drop p) = none) (fuel : Nat) :
    globalMatchesAux openPat closePat fuel s = [] := by
  induction fuel generalizing s with
  | zero => rfl
  | succ fuel ih =>
    cases s with
    | nil => rfl
    | cons c rest =>
      have h0 : matchBlockAt openPat closePat (c :: rest) = none := by
        simpa using h 0
      simp only [globalMatchesAux, h0]
      exact ih (fun p => by simpa using h (p + 1))

theorem globalMatchesAux_cons_match {openPat closePat s : List Char} {len fuel : Nat}
    (h : matchBlockAt openPat closePat s = some len) :
    globalMatchesAux openPat closePat (fuel + 1) s =
      s.take len :: globalMatchesAux openPat closePat fuel (s.drop len) := by
  cases s with
  | nil => rw [matchBlockAt_nil] at h; exact Option.noConfusion h
  | cons c rest => simp only [globalMatchesAux, h]

theorem globalMatchesAux_append_skip {openPat closePat : List Char} (A R : List Char)
    (fuel : Nat)
    (h : ∀ p, p < A.length → matchBlockAt openPat closePat ((A ++ R).drop p) = none) :
    globalMatchesAux openPat closePat (A.length + fuel) (A ++ R) =
      globalMatchesAux openPat closePat fuel R := by
  revert h
  induction A with
  | nil => intro h; simp
  | cons a A ih =>
    intro h
    have h0 : matchBlockAt openPat closePat (a :: (A ++ R)) = none := by
      simpa using h 0 (by simp)
    have hfuel : (a :: A).length + fuel = (A.length + fuel) + 1 := by
      simp [List.length_cons]
      omega
    rw [List.cons_append, hfuel]
    simp only [globalMatchesAux, h0]
    exact ih (fun p hp => by
      simpa using h (p + 1) (by simp [List.length_cons]; omega))

theorem matchStripTagAt_nil (tag : List Char) : matchStripTagAt tag [] = none := by
  simp [matchStripTagAt, ciIsPrefixOf]

theorem matchStripTagAt_some_shape {tag s : List Char} {len : Nat}
    (h : matchStripTagAt tag s = some len) :
    ciIsPrefixOf ('<' :: tag) s = true ∨ ciIsPrefixOf ('<' :: '/' :: tag) s = true := by
  unfold matchStripTagAt at h
  by_cases h1 : ciIsPrefixOf ('<' :: '/' :: tag) s = true
  · exact Or.inr h1
  · rw [if_neg (by simpa using h1)] at h
    by_cases h2 : ciIsPrefixOf ('<' :: tag) s = true
    · exact Or.inl h2
    · rw [if_neg (by simpa using h2)] at h
      exact Option.noConfusion h

theorem stripTagsAux_nil (tag : List Char) (fuel : Nat) :
    stripTagsAux tag fuel [] = [] := by
  cases fuel <;> rfl

theorem stripTagsAux_cons_match {tag s : List Char} {len fuel : Nat}
    (h : matchStripTagAt tag s = some len) :
    stripTagsAux tag (fuel + 1) s = stripTagsAux tag fuel (s.drop len) := by
  cases s with
  | nil => rw [matchStripTagAt_nil] at h; exact Option.noConfusion h
  | cons c rest => simp only [stripTagsAux, h]

theorem stripTagsAux_append_skip {tag : List Char} (A R : List Char) (fuel : Nat)
    (h : ∀ p, p < A.length → matchStripTagAt tag ((A ++ R).drop p) = none) :
    stripTagsAux tag (A.length + fuel) (A ++ R) = A ++ stripTagsAux tag fuel R := by
  revert h
  induction A with
  | nil => intro h; simp
  | cons a A ih =>
    intro h
    have h0 : matchStripTagAt tag (a :: (A ++ R)) = none := by
      simpa using h 0 (by simp)
    have hfuel : (a :: A).length + fuel = (A.length + fuel) + 1 := by
      simp [List.length_cons]
      omega
    rw [List.cons_append, hfuel]
    simp only [stripTagsAux, h0]
    rw [ih (fun p hp => by
      simpa using h (p + 1) (by simp [List.length_cons]; omega))]
    rfl

theorem not_slash_open {tag : List Char} (x : List Char) (h0 : tag ≠ [])
    (hsl : ciEq '/' (tag.headD ' ') = false) :
    ciIsPrefixOf ('<' :: '/' :: tag) ('<' :: (tag ++ x)) = false := by
  cases tag with
  | nil => exact absurd rfl h0
  | cons t0 ts =>
    simp only [List.headD_cons] at hsl
    simp [ciIsPrefixOf, ciEq_refl, hsl]

theorem matchStripTagAt_open {tag r : List Char} (h0 : tag ≠ [])
    (hsl : ciEq '/' (tag.headD ' ') = false) :
    matchStripTagAt tag (('<' :: tag) ++ ('>' :: r)) = some (2 + tag.length) := by
  unfold matchStripTagAt
  rw [if_neg (by
    simp only [List.cons_append]
    rw [not_slash_open ('>' :: r) h0 hsl]
    simp)]
  rw [if_pos (ciIsPrefixOf_append_self _ _)]
  have hlen : 1 + tag.length = ('<' :: tag).length := by
    simp [List.length_cons]
    omega
  rw [hlen, List.drop_left]
  simp [findGt]

theorem matchStripTagAt_close {tag r : List Char} :
    matchStripTagAt tag (('<' :: '/' :: tag) ++ ('>' :: r)) = some (3 + tag.length) := by
  unfold matchStripTagAt
  rw [if_pos (ciIsPrefixOf_append_self _ _)]
  have hlen : 2 + tag.length = ('<' :: '/' :: tag).length := by
    simp [List.length_cons]
    omega
  rw [hlen, List.drop_left]
  simp [findGt]

theorem matchBlockAt_block {openPat closePat I B : List Char}
    (hfind : ciFindFirst closePat (I ++ (closePat ++ B)) = some I.length) :
    matchBlockAt openPat closePat (openPat ++ ('>' :: (I ++ (closePat ++ B)))) =
      some (openPat.length + 1 + I.length + closePat.length) := by
  unfold matchBlockAt
  rw [if_pos (ciIsPrefixOf_append_self _ _)]
  rw [List.drop_left]
  have hgt : findGt ('>' :: (I ++ (closePat ++ B))) = some 0 := by
    simp [findGt]
  simp only [hgt, List.drop_succ_cons, List.drop_zero, hfind]

theorem drop_append_offset (A T : List Char) (k : Nat) :
    (A ++ T).drop (A.length + k) = T.drop k := by
  rw [List.drop_append_eq_append_drop]
  have h1 : A.drop (A.length + k) = [] := List.drop_eq_nil_of_le (by omega)
  have h2 : A.length + k - A.length = k := by omega
  rw [h1, h2]
  rfl

theorem ciIsPrefixOf_append_elim_left {a b s : List Char}
    (h : ciIsPrefixOf (a ++ b) s = true) : ciIsPrefixOf a s = true := by
  induction a generalizing s with
  | nil => rfl
  | cons x xs ih =>
    cases s with
    | nil => simp [ciIsPrefixOf] at h
    | cons c cs =>
      simp only [List.cons_append, ciIsPrefixOf, Bool.and_eq_true] at h ⊢
      exact ⟨h.1, ih h.2⟩

/-- The single-block scan: if the open pattern occurs in `hd` exactly once (at
the block) and the close-tag start occurs exactly once (at the block's closing
tag), then the global scan returns exactly the one block. -/
theorem scan_single_block {tag openPat closeStart closePat A I B hd : List Char}
    (hopen : openPat = '<' :: tag) (hcloseS : closeStart = '<' :: '/' :: tag)
    (hclose : closePat = closeStart ++ ['>'])
    (hdec : hd = A ++ (openPat ++ ('>' :: (I ++ (closePat ++ B)))))
    (H1 : ∀ p, p < hd.length → (ciOccursAt openPat hd p ↔ p = A.length))
    (H2 : ∀ p, p < hd.length →
      (ciOccursAt closeStart hd p ↔ p = A.length + openPat.length + 1 + I.length)) :
    globalMatches openPat closePat hd = [openPat ++ ('>' :: (I ++ closePat))] := by
  have hlen_hd : hd.length
      = A.length + openPat.length + 1 + I.length + closePat.length + B.length := by
    rw [hdec]
    simp [List.length_append, List.length_cons]
    omega
  have hdrop_blockTail : hd.drop (A.length + (openPat.length + 1))
      = I ++ (closePat ++ B) := by
    rw [hdec, drop_append_offset, drop_append_offset, List.drop_succ_cons,
      List.drop_zero]
  -- the close pattern first occurs in the region after the open tag exactly
  -- at the end of I
  have hfind : ciFindFirst closePat (I ++ (closePat ++ B)) = some I.length := by
    apply ciFindFirst_eq_some_of_occ
    · show ciIsPrefixOf closePat ((I ++ (closePat ++ B)).drop I.length) = true
      rw [List.drop_left]
      exact ciIsPrefixOf_append_self _ _
    · intro q hq hocc
      have hoccS : ciOccursAt closeStart (I ++ (closePat ++ B)) q := by
        unfold ciOccursAt at hocc ⊢
        have h2 : ciIsPrefixOf (closeStart ++ ['>']) ((I ++ (closePat ++ B)).drop q)
            = true := by
          rw [← hclose]
          exact hocc
        exact ciIsPrefixOf_append_elim_left h2
      have hoccHd : ciOccursAt closeStart hd (A.length + (openPat.length + 1) + q) := by
        have h1 : ciOccursAt closeStart (hd.drop (A.length + (openPat.length + 1))) q := by
          rw [hdrop_blockTail]
          exact hoccS
        exact ciOccursAt_drop.mp h1
      have hlt : A.length + (openPat.length + 1) + q < hd.length := by omega
      have := (H2 _ hlt).mp hoccHd
      omega
  -- the scan skips all of A
  have hskipA : ∀ p, p < A.length → matchBlockAt openPat closePat (hd.drop p) = none := by
    intro p hp
    apply matchBlockAt_none_of_not_open
    have hplt : p < hd.length := by omega
    have hnocc : ¬ ciOccursAt openPat hd p := by
      intro hocc
      have := (H1 p hplt).mp hocc
      omega
    cases hval : ciIsPrefixOf openPat (hd.drop p) with
    | false => rfl
    | true => exact absurd hval hnocc
  -- the scan finds nothing in B
  have hopen_ne : openPat ≠ [] := by rw [hopen]; simp
  have hdropB : ∀ p, hd.drop (A.length + openPat.length + 1 + I.length
      + closePat.length + p) = B.drop p := by
    intro p
    rw [hdec]
    have harr : A.length + openPat.length + 1 + I.length + closePat.length + p
        = A.length + (openPat.length + ((I.length + (closePat.length + p)) + 1)) := by
      omega
    rw [harr, drop_append_offset, drop_append_offset, List.drop_succ_cons,
      drop_append_offset, drop_append_offset]
  have hskipB : ∀ p, matchBlockAt openPat closePat (B.drop p) = none := by
    intro p
    apply matchBlockAt_none_of_not_open
    cases hval : ciIsPrefixOf openPat (B.drop p) with
    | false => rfl
    | true =>
      exfalso
      have hocc : ciOccursAt openPat hd (A.length + openPat.length + 1 + I.length
          + closePat.length + p) := by
        unfold ciOccursAt
        rw [hdropB p]
        exact hval
      by_cases hklt : A.length + openPat.length + 1 + I.length
          + closePat.length + p < hd.length
      · have := (H1 _ hklt).mp hocc
        omega
      · have hnil : hd.drop (A.length + openPat.length + 1 + I.length
            + closePat.length + p) = [] := List.drop_eq_nil_of_le (by omega)
        unfold ciOccursAt at hocc
        rw [hnil, ciIsPrefixOf_nil_of_ne hopen_ne] at hocc
        exact Bool.false_ne_true hocc
  -- assemble the scan
  unfold globalMatches
  have hrest : hd.length = A.length
      + ((openPat.length + 1 + I.length + closePat.length + B.length - 1) + 1) := by
    omega
  rw [hrest, hdec]
  rw [globalMatchesAux_append_skip A _ _ (by rw [← hdec]; exact hskipA)]
  have hmb : matchBlockAt openPat closePat (openPat ++ ('>' :: (I ++ (closePat ++ B))))
      = some (openPat.length + 1 + I.length + closePat.length) :=
    matchBlockAt_block hfind
  rw [globalMatchesAux_cons_match hmb]
  have hsplit : openPat ++ ('>' :: (I ++ (closePat ++ B)))
      = (openPat ++ ('>' :: (I ++ closePat))) ++ B := by
    simp [List.append_assoc]
  have hblen : (openPat ++ ('>' :: (I ++ closePat))).length
      = openPat.length + 1 + I.length + closePat.length := by
    simp [List.length_append, List.length_cons]
    omega
  rw [hsplit, List.take_left' hblen, List.drop_left' hblen]
  rw [globalMatchesAux_nil_of_none hskipB]

/-- The single-block strip: under the same exactly-one-block hypotheses, the
tag stripper removes exactly the open and close tags of the block, leaving its
inner text. -/
theorem strip_single_block {tag openPat closeStart closePat A I B hd : List Char}
    (htag0 : tag ≠ []) (htagsl : ciEq '/' (tag.headD ' ') = false)
    (hopen : openPat = '<' :: tag) (hcloseS : closeStart = '<' :: '/' :: tag)
    (hclose : closePat = closeStart ++ ['>'])
    (hdec : hd = A ++ (openPat ++ ('>' :: (I ++ (closePat ++ B)))))
    (H1 : ∀ p, p < hd.length → (ciOccursAt openPat hd p ↔ p = A.length))
    (H2 : ∀ p, p < hd.length →
      (ciOccursAt closeStart hd p ↔ p = A.length + openPat.length + 1 + I.length)) :
    stripTags tag (openPat ++ ('>' :: (I ++ closePat))) = I := by
  have hlen_hd : hd.length
      = A.length + openPat.length + 1 + I.length + closePat.length + B.length := by
    rw [hdec]
    simp [List.length_append, List.length_cons]
    omega
  have hLopen : openPat.length = tag.length + 1 := by rw [hopen]; simp
  have hLclose : closePat.length = tag.length + 3 := by
    rw [hclose, hcloseS]
    simp
  have hdrop_blockTail : hd.drop (A.length + (openPat.length + 1))
      = I ++ (closePat ++ B) := by
    rw [hdec, drop_append_offset, drop_append_offset, List.drop_succ_cons,
      List.drop_zero]
  -- no strip-pattern match anywhere strictly inside I
  have hskipI : ∀ p, p < I.length →
      matchStripTagAt tag ((I ++ closePat).drop p) = none := by
    intro p hp
    cases hval : matchStripTagAt tag ((I ++ closePat).drop p) with
    | none => rfl
    | some len =>
      exfalso
      have hhd_at : hd.drop (A.length + (openPat.length + 1) + p)
          = (I ++ closePat).drop p ++ B := by
        have h1 : hd.drop (A.length + (openPat.length + 1) + p)
            = (I ++ (closePat ++ B)).drop p := by
          rw [← hdrop_blockTail, List.drop_drop]
        rw [h1, ← List.append_assoc, List.drop_append_eq_append_drop]
        have h2 : p - (I ++ closePat).length = 0 := by
          simp [List.length_append]
          omega
        rw [h2, List.drop_zero]
      have hshape := matchStripTagAt_some_shape hval
      have hposlt : A.length + (openPat.length + 1) + p < hd.length := by omega
      cases hshape with
      | inl hpre =>
        have hocc : ciOccursAt openPat hd (A.length + (openPat.length + 1) + p) := by
          unfold ciOccursAt
          rw [hhd_at, hopen]
          exact ciIsPrefixOf_append_left hpre B
        have := (H1 _ hposlt).mp hocc
        omega
      | inr hpre =>
        have hocc : ciOccursAt closeStart hd (A.length + (openPat.length + 1) + p) := by
          unfold ciOccursAt
          rw [hhd_at, hcloseS]
          exact ciIsPrefixOf_append_left hpre B
        have := (H2 _ hposlt).mp hocc
        omega
  -- assemble the strip
  unfold stripTags
  have hLm : (openPat ++ ('>' :: (I ++ closePat))).length
      = (I.length + (2 * tag.length + 4)) + 1 := by
    simp [List.length_append, List.length_cons]
    omega
  rw [hLm]
  have hm0 : matchStripTagAt tag (openPat ++ ('>' :: (I ++ closePat)))
      = some (2 + tag.length) := by
    rw [hopen]
    exact matchStripTagAt_open htag0 htagsl
  rw [stripTagsAux_cons_match hm0]
  have hdrop0 : (openPat ++ ('>' :: (I ++ closePat))).drop (2 + tag.length)
      = I ++ closePat := by
    have h1 : 2 + tag.length = openPat.length + 1 := by omega
    rw [h1, drop_append_offset, List.drop_succ_cons, List.drop_zero]
  rw [hdrop0]
  rw [stripTagsAux_append_skip I closePat (2 * tag.length + 4) hskipI]
  have hmc : matchStripTagAt tag closePat = some (3 + tag.length) := by
    have h1 : closePat = ('<' :: '/' :: tag) ++ ('>' :: ([] : List Char)) := by
      rw [hclose, hcloseS]
    rw [h1]
    exact matchStripTagAt_close
  have hfuel : 2 * tag.length + 4 = (2 * tag.length + 3) + 1 := by omega
  rw [hfuel, stripTagsAux_cons_match hmc]
  have hdropc : closePat.drop (3 + tag.length) = [] :=
    List.drop_eq_nil_of_le (by omega)
  rw [hdropc, stripTagsAux_nil, List.append_nil]

/-! ## String-level helpers -/

theorem ciIsPrefixOf_refl (pat : List Char) : ciIsPrefixOf pat pat = true := by
  simpa using ciIsPrefixOf_append_self pat []

theorem ciIsPrefixOf_take {pat x : List Char} {n : Nat}
    (h : ciIsPrefixOf pat x = true) (hn : pat.length ≤ n) :
    ciIsPrefixOf pat (x.take n) = true := by
  induction pat generalizing x n with
  | nil => rfl
  | cons p ps ih =>
    cases x with
    | nil => simp [ciIsPrefixOf] at h
    | cons c cs =>
      cases n with
      | zero => simp at hn
      | succ n =>
        simp only [ciIsPrefixOf, Bool.and_eq_true] at h
        simp only [List.take_succ_cons, ciIsPrefixOf, Bool.and_eq_true]
        exact ⟨h.1, ih h.2 (by simpa using hn)⟩

theorem ciOccursAt_of_take {pat t : List Char} {n p : Nat}
    (h : ciOccursAt pat (t.take n) p) : ciOccursAt pat t p := by
  unfold ciOccursAt at h ⊢
  rw [List.drop_take] at h
  exact ciIsPrefixOf_of_take h

theorem infix_ext_right {p s : List Char} (t : List Char) (h : p <:+: s) :
    p <:+: s ++ t := by
  rcases h with ⟨l, r, hl⟩
  exact ⟨l, r ++ t, by rw [← hl]; simp⟩

theorem infix_ext_left {p t : List Char} (s : List Char) (h : p <:+: t) :
    p <:+: s ++ t := by
  rcases h with ⟨l, r, hl⟩
  exact ⟨s ++ l, r, by rw [← hl]; simp⟩

theorem ciStartsWith_append {a : String} (b : String) {pat : List Char}
    (h : ciStartsWith a pat) : ciStartsWith (a ++ b) pat := by
  unfold ciStartsWith at h ⊢
  rw [String.data_append]
  exact ciIsPrefixOf_append_left h _

theorem ciEndsWith_append (a : String) {b : String} {pat : List Char}
    (h : ciEndsWith b pat) : ciEndsWith (a ++ b) pat := by
  unfold ciEndsWith at h ⊢
  rcases h with ⟨hlen, hpre⟩
  rw [String.data_append, List.length_append]
  refine ⟨by omega, ?_⟩
  have harr : a.data.length + b.data.length - pat.length
      = a.data.length + (b.data.length - pat.length) := by omega
  rw [harr, drop_append_offset]
  exact hpre

/-- Both mock templates are delimited by a doctype declaration and a closing
html tag, and are long enough for the two not to overlap. -/
theorem mockWithErrorHtml_delimited (ud : UserFormData) (e : GeminiClient.ErrValue)
    (kA : Bool) (ctx : GeminiClient.RuntimeCtx) :
    ciStartsWith (GeminiClient.mockWithErrorHtml ud e kA ctx) doctypeTag ∧
    ciEndsWith (GeminiClient.mockWithErrorHtml ud e kA ctx) closeHtmlTag ∧
    doctypeTag.length + closeHtmlTag.length
      ≤ (GeminiClient.mockWithErrorHtml ud e kA ctx).length := by
  refine ⟨?_, ?_, ?_⟩
  · unfold ciStartsWith GeminiClient.mockWithErrorHtml
    simp only [String.data_append]
    repeat apply ciIsPrefixOf_append_left
    exact ciIsPrefixOf_refl _
  · unfold GeminiClient.mockWithErrorHtml
    exact ciEndsWith_append _ (by decide)
  · unfold GeminiClient.mockWithErrorHtml
    simp only [String.length_append]
    have h15 : ("<!DOCTYPE html>" : String).length = 15 := rfl
    have h7 : ("</html>" : String).length = 7 := rfl
    have hd15 : doctypeTag.length = 15 := by decide
    have hc7 : closeHtmlTag.length = 7 := by decide
    rw [h15, h7, hd15, hc7]
    omega

theorem mockNoKeyHtml_delimited (ud : UserFormData) :
    ciStartsWith (GeminiClient.mockNoKeyHtml ud) doctypeTag ∧
    ciEndsWith (GeminiClient.mockNoKeyHtml ud) closeHtmlTag ∧
    doctypeTag.length + closeHtmlTag.length
      ≤ (GeminiClient.mockNoKeyHtml ud).length := by
  refine ⟨?_, ?_, ?_⟩
  · unfold ciStartsWith GeminiClient.mockNoKeyHtml
    simp only [String.data_append]
    repeat apply ciIsPrefixOf_append_left
    exact ciIsPrefixOf_refl _
  · unfold GeminiClient.mockNoKeyHtml
    exact ciEndsWith_append _ (by decide)
  · unfold GeminiClient.mockNoKeyHtml
    simp only [String.length_append]
    have h15 : ("<!DOCTYPE html>" : String).length = 15 := rfl
    have h7 : ("</html>" : String).length = 7 := rfl
    have hd15 : doctypeTag.length = 15 := by decide
    have hc7 : closeHtmlTag.length = 7 := by decide
    rw [h15, h7, hd15, hc7]
    omega

/-- The doctype matcher matches each mock template in full. -/
theorem mockWithErrorHtml_htmlMatch (ud : UserFormData) (e : GeminiClient.ErrValue)
    (kA : Bool) (ctx : GeminiClient.RuntimeCtx) :
    htmlMatch (GeminiClient.mockWithErrorHtml ud e kA ctx).data
      = some (GeminiClient.mockWithErrorHtml ud e kA ctx).data := by
  obtain ⟨h1, h2, h3⟩ := mockWithErrorHtml_delimited ud e kA ctx
  exact htmlMatch_self h1 h2.2 h3

theorem mockNoKeyHtml_htmlMatch (ud : UserFormData) :
    htmlMatch (GeminiClient.mockNoKeyHtml ud).data
      = some (GeminiClient.mockNoKeyHtml ud).data := by
  obtain ⟨h1, h2, h3⟩ := mockNoKeyHtml_delimited ud
  exact htmlMatch_self h1 h2.2 h3

/-- A successful doctype match is itself doctype-delimited. -/
theorem htmlMatch_some_delimited {s m : List Char} (h : htmlMatch s = some m) :
    ciIsPrefixOf doctypeTag m = true ∧
    doctypeTag.length + closeHtmlTag.length ≤ m.length ∧
    ciIsPrefixOf closeHtmlTag (m.drop (m.length - closeHtmlTag.length)) = true := by
  rcases htmlMatch_some_spec h with ⟨i, j, hi, _, hj, hle, _, hmeq⟩
  subst hmeq
  have hC : closeHtmlTag.length = 7 := by decide
  have hL : doctypeTag.length = 15 := by decide
  have hjlen : j + closeHtmlTag.length ≤ s.length := by
    have := ciIsPrefixOf_length_le hj
    rw [List.length_drop] at this
    omega
  have hmlen : ((s.drop i).take (j + closeHtmlTag.length - i)).length
      = j + closeHtmlTag.length - i := by
    rw [List.length_take, List.length_drop]
    omega
  refine ⟨ciIsPrefixOf_take hi (by omega), by rw [hmlen]; omega, ?_⟩
  rw [hmlen]
  have harr : j + closeHtmlTag.length - i - closeHtmlTag.length = j - i := by omega
  rw [harr, List.drop_take, List.drop_drop]
  have harr2 : i + (j - i) = j := by omega
  have harr3 : j + closeHtmlTag.length - i - (j - i) = closeHtmlTag.length := by omega
  rw [harr2, harr3]
  exact ciIsPrefixOf_take hj (by omega)

/-- If the open pattern never occurs, the global scan returns nothing. -/
theorem no_occ_globalMatches_nil {openPat closePat s : List Char}
    (h : ∀ p, ¬ ciOccursAt openPat s p) : globalMatches openPat closePat s = [] := by
  apply globalMatchesAux_nil_of_none
  intro p
  apply matchBlockAt_none_of_not_open
  cases hval : ciIsPrefixOf openPat (s.drop p) with
  | false => rfl
  | true => exact absurd hval (h p)

/-- A pattern absent from the response text is absent from the matched span. -/
theorem no_occ_in_match {pat s m : List Char} (hm : htmlMatch s = some m)
    (hno : ciFindFirst pat s = none) : ∀ p, ¬ ciOccursAt pat m p := by
  rcases htmlMatch_some_spec hm with ⟨i, j, _, _, _, _, _, hmeq⟩
  subst hmeq
  intro p hocc
  have h1 := ciOccursAt_of_take hocc
  have h2 := ciOccursAt_drop.mp h1
  exact ciFindFirst_none hno _ h2

theorem ne_empty_of_pos_length {s : String} (h : 1 ≤ s.length) : s ≠ "" := by
  intro heq
  rw [heq] at h
  simp at h

/-! ## Containment facts about the diagnostic and notice documents -/

theorem mockNoKeyHtml_contains_issue (ud : UserFormData) :
    strContains (GeminiClient.mockNoKeyHtml ud) "API Configuration Issue" := by
  unfold strContains GeminiClient.mockNoKeyHtml
  simp only [String.data_append, List.append_assoc]
  iterate 6 (apply infix_ext_left)
  apply infix_ext_right
  decide

theorem mockNoKeyHtml_contains_inaccessible (ud : UserFormData) :
    strContains (GeminiClient.mockNoKeyHtml ud) "The Gemini API key is not accessible" := by
  unfold strContains GeminiClient.mockNoKeyHtml
  simp only [String.data_append, List.append_assoc]
  iterate 8 (apply infix_ext_left)
  apply infix_ext_right
  decide

theorem mockNoKeyHtml_contains_name (ud : UserFormData) :
    strContains (GeminiClient.mockNoKeyHtml ud) ud.name := by
  unfold strContains GeminiClient.mockNoKeyHtml
  simp only [String.data_append, List.append_assoc]
  iterate 2 (apply infix_ext_left)
  apply infix_ext_right
  exact List.infix_refl _

theorem mockWithErrorHtml_contains_detected (ud : UserFormData)
    (e : GeminiClient.ErrValue) (kA : Bool) (ctx : GeminiClient.RuntimeCtx) :
    strContains (GeminiClient.mockWithErrorHtml ud e kA ctx) "❌ API Error Detected" := by
  unfold strContains GeminiClient.mockWithErrorHtml
  simp only [String.data_append, List.append_assoc]
  iterate 6 (apply infix_ext_left)
  apply infix_ext_right
  exact List.infix_refl _

/-! ## The claims -/

/-- C10: every `GeneratedWebsite` value returned on any path — the parsed
model response, the no-doctype verbatim fallback, the credential-missing mock,
the caught-error diagnostic, and every run of `generateWebsite` — satisfies
`preview = html` exactly. -/
theorem preview_eq_html_all_paths :
    (∀ text : String,
      (Route.parseGeneratedCode text).preview = (Route.parseGeneratedCode text).html)
    ∧ (∀ text : String,
      (GeminiClient.parseGeneratedCode text).preview
        = (GeminiClient.parseGeneratedCode text).html)
    ∧ (∀ ud e kA ctx, (GeminiClient.getMockWebsiteWithError ud e kA ctx).preview
        = (GeminiClient.getMockWebsiteWithError ud e kA ctx).html)
    ∧ (∀ ud, (GeminiClient.getMockWebsite ud).preview
        = (GeminiClient.getMockWebsite ud).html)
    ∧ (∀ env ctx ud outcome, (GeminiClient.generateWebsite env ctx ud outcome).preview
        = (GeminiClient.generateWebsite env ctx ud outcome).html) := by
  refine ⟨?_, ?_, fun ud e kA ctx => rfl, fun ud => rfl, ?_⟩
  · intro text
    unfold Route.parseGeneratedCode
    cases htmlMatch text.data <;> rfl
  · intro text
    unfold GeminiClient.parseGeneratedCode
    cases htmlMatch text.data <;> rfl
  · intro env ctx ud outcome
    cases hres : GeminiClient.resolveApiKey env with
    | none =>
      simp only [GeminiClient.generateWebsite, hres]
      rfl
    | some k =>
      cases outcome with
      | apiError e =>
        simp only [GeminiClient.generateWebsite, hres]
        rfl
      | noResponse =>
        simp only [GeminiClient.generateWebsite, hres]
        rfl
      | noCandidates =>
        simp only [GeminiClient.generateWebsite, hres]
        rfl
      | response t =>
        simp only [GeminiClient.generateWebsite, hres]
        by_cases hl : t.length < 100
        · rw [if_pos hl]
          rfl
        · rw [if_neg hl]
          unfold GeminiClient.parseGeneratedCode
          cases htmlMatch t.data <;> rfl


/-- C3: when no API credential is resolvable from the environment,
`generateWebsite` returns the mock notice document without attempting the
model call — the result does not depend on the call outcome at all — and the
returned html explicitly names the missing-credential condition. -/
theorem generateWebsite_no_credential (env : GeminiClient.EnvConfig)
    (ctx ctx' : GeminiClient.RuntimeCtx) (ud : UserFormData)
    (outcome outcome' : GeminiClient.ApiOutcome)
    (h : GeminiClient.resolveApiKey env = none) :
    GeminiClient.generateWebsite env ctx ud outcome = GeminiClient.getMockWebsite ud
    ∧ GeminiClient.generateWebsite env ctx ud outcome
        = GeminiClient.generateWebsite env ctx' ud outcome'
    ∧ strContains (GeminiClient.generateWebsite env ctx ud outcome).html
        "API Configuration Issue"
    ∧ strContains (GeminiClient.generateWebsite env ctx ud outcome).html
        "The Gemini API key is not accessible" := by
  have heq : ∀ (c : GeminiClient.RuntimeCtx) (o : GeminiClient.ApiOutcome),
      GeminiClient.generateWebsite env c ud o = GeminiClient.getMockWebsite ud := by
    intro c o
    unfold GeminiClient.generateWebsite
    rw [h]
  refine ⟨heq ctx outcome, by rw [heq, heq], ?_, ?_⟩
  · rw [heq]
    exact mockNoKeyHtml_contains_issue ud
  · rw [heq]
    exact mockNoKeyHtml_contains_inaccessible ud

/-- Witness for C3 at a concrete input: the environment with no variables set
resolves no key, and the conclusion holds for the Jane Doe profile. -/
theorem generateWebsite_no_credential_witness :
    GeminiClient.resolveApiKey emptyEnv = none
    ∧ (GeminiClient.generateWebsite emptyEnv serverCtx janeDoe
          GeminiClient.ApiOutcome.noResponse = GeminiClient.getMockWebsite janeDoe
      ∧ GeminiClient.generateWebsite emptyEnv serverCtx janeDoe
          GeminiClient.ApiOutcome.noResponse
        = GeminiClient.generateWebsite emptyEnv serverCtx janeDoe
            GeminiClient.ApiOutcome.noCandidates
      ∧ strContains (GeminiClient.generateWebsite emptyEnv serverCtx janeDoe
          GeminiClient.ApiOutcome.noResponse).html "API Configuration Issue"
      ∧ strContains (GeminiClient.generateWebsite emptyEnv serverCtx janeDoe
          GeminiClient.ApiOutcome.noResponse).html
          "The Gemini API key is not accessible") :=
  ⟨rfl, generateWebsite_no_credential emptyEnv serverCtx serverCtx janeDoe
    GeminiClient.ApiOutcome.noResponse GeminiClient.ApiOutcome.noCandidates rfl⟩

/-- C2: with a credential configured, every expected failure mode of the
external call — a thrown error, a falsy response, zero candidates, or a
too-short response text — is caught and converted into a successfully
returned diagnostic document whose html identifies the failure; the embedded
`generateWebsite` is a total function, so no such outcome propagates an
exception to the caller. -/
theorem generateWebsite_failure_diagnostic (env : GeminiClient.EnvConfig)
    (k : String) (ctx : GeminiClient.RuntimeCtx) (ud : UserFormData)
    (outcome : GeminiClient.ApiOutcome)
    (hk : GeminiClient.resolveApiKey env = some k)
    (hf : isFailureOutcome outcome = true) :
    (∃ e, GeminiClient.generateWebsite env ctx ud outcome
        = GeminiClient.getMockWebsiteWithError ud e true ctx)
    ∧ strContains (GeminiClient.generateWebsite env ctx ud outcome).html
        "❌ API Error Detected" := by
  have hres : ∃ e, GeminiClient.generateWebsite env ctx ud outcome
      = GeminiClient.getMockWebsiteWithError ud e true ctx := by
    cases outcome with
    | apiError e =>
      refine ⟨e, ?_⟩
      simp only [GeminiClient.generateWebsite, hk]
    | noResponse =>
      refine ⟨GeminiClient.errorOf "No response received from Gemini API", ?_⟩
      simp only [GeminiClient.generateWebsite, hk]
    | noCandidates =>
      refine ⟨GeminiClient.errorOf
        "No candidates in Gemini response - possible content policy violation", ?_⟩
      simp only [GeminiClient.generateWebsite, hk]
    | response t =>
      have hlt : t.length < 100 := of_decide_eq_true (by simpa [isFailureOutcome] using hf)
      refine ⟨GeminiClient.errorOf (GeminiClient.responseTooShortMessage t), ?_⟩
      simp only [GeminiClient.generateWebsite, hk, if_pos hlt]
  rcases hres with ⟨e, he⟩
  refine ⟨⟨e, he⟩, ?_⟩
  rw [he]
  exact mockWithErrorHtml_contains_detected ud e true ctx

/-- Witness for C2 at a concrete input: a keyed environment and a thrown
vendor error produce the diagnostic document. -/
theorem generateWebsite_failure_diagnostic_witness :
    GeminiClient.resolveApiKey keyedEnv = some "test-key"
    ∧ isFailureOutcome (GeminiClient.ApiOutcome.apiError
        (GeminiClient.errorOf "network down")) = true
    ∧ ((∃ e, GeminiClient.generateWebsite keyedEnv serverCtx janeDoe
          (GeminiClient.ApiOutcome.apiError (GeminiClient.errorOf "network down"))
        = GeminiClient.getMockWebsiteWithError janeDoe e true serverCtx)
      ∧ strContains (GeminiClient.generateWebsite keyedEnv serverCtx janeDoe
          (GeminiClient.ApiOutcome.apiError (GeminiClient.errorOf "network down"))).html
          "❌ API Error Detected") :=
  ⟨rfl, rfl, generateWebsite_failure_diagnostic keyedEnv "test-key" serverCtx janeDoe
    (GeminiClient.ApiOutcome.apiError (GeminiClient.errorOf "network down")) rfl rfl⟩

/-- C8 counterexample: in the no-credential scenario of the claim, the
returned `css` and `js` are the empty string, not non-empty placeholder
strings — `getMockWebsite` returns `{ css: '', js: '' }`. -/
theorem mock_jane_doe_css_js_empty :
    (GeminiClient.generateWebsite emptyEnv serverCtx janeDoe
        GeminiClient.ApiOutcome.noResponse).css = ""
    ∧ (GeminiClient.generateWebsite emptyEnv serverCtx janeDoe
        GeminiClient.ApiOutcome.noResponse).js = "" :=
  ⟨rfl, rfl⟩

/-- C8 (amended): for the Jane Doe profile with no credential configured, the
result's html contains the string "Jane Doe" and human-readable statements
that configuration is required, while `css` and `js` are the empty string
(the source returns empty strings here, not placeholder comments). -/
theorem mock_jane_doe_amended :
    strContains (GeminiClient.generateWebsite emptyEnv serverCtx janeDoe
        GeminiClient.ApiOutcome.noResponse).html "Jane Doe"
    ∧ strContains (GeminiClient.generateWebsite emptyEnv serverCtx janeDoe
        GeminiClient.ApiOutcome.noResponse).html "API Configuration Issue"
    ∧ strContains (GeminiClient.generateWebsite emptyEnv serverCtx janeDoe
        GeminiClient.ApiOutcome.noResponse).html "The Gemini API key is not accessible"
    ∧ (GeminiClient.generateWebsite emptyEnv serverCtx janeDoe
        GeminiClient.ApiOutcome.noResponse).css = ""
    ∧ (GeminiClient.generateWebsite emptyEnv serverCtx janeDoe
        GeminiClient.ApiOutcome.noResponse).js = "" := by
  have heq : GeminiClient.generateWebsite emptyEnv serverCtx janeDoe
      GeminiClient.ApiOutcome.noResponse = GeminiClient.getMockWebsite janeDoe := rfl
  rw [heq]
  refine ⟨?_, mockNoKeyHtml_contains_issue _, mockNoKeyHtml_contains_inaccessible _,
    rfl, rfl⟩
  have hn : janeDoe.name = "Jane Doe" := rfl
  have := mockNoKeyHtml_contains_name janeDoe
  rwa [hn] at this

/-- C7: feeding the Gemini client's own fallback-diagnostic document back
through either extraction routine yields the same html unchanged — the
doctype-to-closing-html matcher is round-trip stable on it. -/
theorem parse_roundtrip_fallback (ud : UserFormData) (e : GeminiClient.ErrValue)
    (kA : Bool) (ctx : GeminiClient.RuntimeCtx) :
    (Route.parseGeneratedCode (GeminiClient.mockWithErrorHtml ud e kA ctx)).html
      = GeminiClient.mockWithErrorHtml ud e kA ctx
    ∧ (GeminiClient.parseGeneratedCode (GeminiClient.mockWithErrorHtml ud e kA ctx)).html
      = GeminiClient.mockWithErrorHtml ud e kA ctx := by
  have hm := mockWithErrorHtml_htmlMatch ud e kA ctx
  constructor
  · simp only [Route.parseGeneratedCode, hm]
  · simp only [GeminiClient.parseGeneratedCode, hm]

/-- C1 counterexample: with a credential configured and a successful model
response of 120 non-HTML characters (length ≥ 100, so it passes the length
check), `generateWebsite` returns that response verbatim as `html`, which
does not begin with a doctype declaration — so the claimed invariant fails on
the successful-response path. -/
theorem generateWebsite_html_counterexample :
    (GeminiClient.generateWebsite keyedEnv serverCtx janeDoe
        (GeminiClient.ApiOutcome.response plainLongResponse)).html = plainLongResponse
    ∧ ¬ ciStartsWith plainLongResponse doctypeTag := by
  constructor
  · decide
  · decide

/-- C1 (amended): for every input, `generateWebsite` returns a non-empty
`html`; on the credential-missing path and on every caught-failure path the
html begins with a doctype declaration and ends with a closing html tag; on
the successful-response path this delimitation holds whenever the response
contains a doctype-to-closing-html span, while a span-less response is
returned verbatim (non-empty, but not necessarily doctype-delimited, as the
counterexample shows). -/
theorem generateWebsite_html_delimited (env : GeminiClient.EnvConfig)
    (ctx : GeminiClient.RuntimeCtx) (ud : UserFormData)
    (outcome : GeminiClient.ApiOutcome) (hname : ud.name ≠ "") :
    (GeminiClient.generateWebsite env ctx ud outcome).html ≠ ""
    ∧ ((GeminiClient.resolveApiKey env = none ∨ isFailureOutcome outcome = true) →
        ciStartsWith (GeminiClient.generateWebsite env ctx ud outcome).html doctypeTag
        ∧ ciEndsWith (GeminiClient.generateWebsite env ctx ud outcome).html closeHtmlTag)
    ∧ (∀ t, outcome = GeminiClient.ApiOutcome.response t →
        isFailureOutcome outcome = false → hasDoctypeSpan t.data →
        ciStartsWith (GeminiClient.generateWebsite env ctx ud outcome).html doctypeTag
        ∧ ciEndsWith (GeminiClient.generateWebsite env ctx ud outcome).html closeHtmlTag) := by
  have h15 : doctypeTag.length = 15 := by decide
  have h7 : closeHtmlTag.length = 7 := by decide
  cases hres : GeminiClient.resolveApiKey env with
  | none =>
    have heq : GeminiClient.generateWebsite env ctx ud outcome
        = GeminiClient.getMockWebsite ud := by
      simp only [GeminiClient.generateWebsite, hres]
    obtain ⟨h1, h2, h3⟩ := mockNoKeyHtml_delimited ud
    rw [heq, show (GeminiClient.getMockWebsite ud).html = GeminiClient.mockNoKeyHtml ud
      from rfl]
    exact ⟨ne_empty_of_pos_length (by omega), fun _ => ⟨h1, h2⟩, fun t _ _ _ => ⟨h1, h2⟩⟩
  | some k =>
    cases outcome with
    | apiError e =>
      have heq : GeminiClient.generateWebsite env ctx ud (GeminiClient.ApiOutcome.apiError e)
          = GeminiClient.getMockWebsiteWithError ud e true ctx := by
        simp only [GeminiClient.generateWebsite, hres]
      obtain ⟨h1, h2, h3⟩ := mockWithErrorHtml_delimited ud e true ctx
      rw [heq, show (GeminiClient.getMockWebsiteWithError ud e true ctx).html
        = GeminiClient.mockWithErrorHtml ud e true ctx from rfl]
      exact ⟨ne_empty_of_pos_length (by omega), fun _ => ⟨h1, h2⟩,
        fun t ht _ _ => GeminiClient.ApiOutcome.noConfusion ht⟩
    | noResponse =>
      have heq : GeminiClient.generateWebsite env ctx ud GeminiClient.ApiOutcome.noResponse
          = GeminiClient.getMockWebsiteWithError ud
              (GeminiClient.errorOf "No response received from Gemini API") true ctx := by
        simp only [GeminiClient.generateWebsite, hres]
      obtain ⟨h1, h2, h3⟩ := mockWithErrorHtml_delimited ud
        (GeminiClient.errorOf "No response received from Gemini API") true ctx
      rw [heq, show (GeminiClient.getMockWebsiteWithError ud
          (GeminiClient.errorOf "No response received from Gemini API") true ctx).html
        = GeminiClient.mockWithErrorHtml ud
            (GeminiClient.errorOf "No response received from Gemini API") true ctx from rfl]
      exact ⟨ne_empty_of_pos_length (by omega), fun _ => ⟨h1, h2⟩,
        fun t ht _ _ => GeminiClient.ApiOutcome.noConfusion ht⟩
    | noCandidates =>
      have heq : GeminiClient.generateWebsite env ctx ud GeminiClient.ApiOutcome.noCandidates
          = GeminiClient.getMockWebsiteWithError ud
              (GeminiClient.errorOf
                "No candidates in Gemini response - possible content policy violation")
              true ctx := by
        simp only [GeminiClient.generateWebsite, hres]
      obtain ⟨h1, h2, h3⟩ := mockWithErrorHtml_delimited ud
        (GeminiClient.errorOf
          "No candidates in Gemini response - possible content policy violation") true ctx
      rw [heq, show (GeminiClient.getMockWebsiteWithError ud
          (GeminiClient.errorOf
            "No candidates in Gemini response - possible content policy violation")
          true ctx).html
        = GeminiClient.mockWithErrorHtml ud
            (GeminiClient.errorOf
              "No candidates in Gemini response - possible content policy violation")
            true ctx from rfl]
      exact ⟨ne_empty_of_pos_length (by omega), fun _ => ⟨h1, h2⟩,
        fun t ht _ _ => GeminiClient.ApiOutcome.noConfusion ht⟩
    | response t =>
      by_cases hl : t.length < 100
      · have heq : GeminiClient.generateWebsite env ctx ud
            (GeminiClient.ApiOutcome.response t)
            = GeminiClient.getMockWebsiteWithError ud
                (GeminiClient.errorOf (GeminiClient.responseTooShortMessage t)) true ctx := by
          simp only [GeminiClient.generateWebsite, hres, if_pos hl]
        obtain ⟨h1, h2, h3⟩ := mockWithErrorHtml_delimited ud
          (GeminiClient.errorOf (GeminiClient.responseTooShortMessage t)) true ctx
        rw [heq, show (GeminiClient.getMockWebsiteWithError ud
            (GeminiClient.errorOf (GeminiClient.responseTooShortMessage t)) true ctx).html
          = GeminiClient.mockWithErrorHtml ud
              (GeminiClient.errorOf (GeminiClient.responseTooShortMessage t)) true ctx
          from rfl]
        refine ⟨ne_empty_of_pos_length (by omega), fun _ => ⟨h1, h2⟩, ?_⟩
        intro t' ht' hfail _
        injection ht' with hteq
        subst hteq
        exact absurd hl (of_decide_eq_false (by simpa [isFailureOutcome] using hfail))
      · have heq : GeminiClient.generateWebsite env ctx ud
            (GeminiClient.ApiOutcome.response t)
            = GeminiClient.parseGeneratedCode t := by
          simp only [GeminiClient.generateWebsite, hres, if_neg hl]
        rw [heq]
        refine ⟨?_, ?_, ?_⟩
        · cases hm : htmlMatch t.data with
          | some m =>
            obtain ⟨hd1, hd2, hd3⟩ := htmlMatch_some_delimited hm
            have heq2 : (GeminiClient.parseGeneratedCode t).html = ⟨m⟩ := by
              simp only [GeminiClient.parseGeneratedCode, hm]
            rw [heq2]
            apply ne_empty_of_pos_length
            have hlen : (String.mk m).length = m.length := rfl
            omega
          | none =>
            have heq2 : (GeminiClient.parseGeneratedCode t).html = t := by
              simp only [GeminiClient.parseGeneratedCode, hm]
            rw [heq2]
            exact ne_empty_of_pos_length (by omega)
        · intro hdisj
          cases hdisj with
          | inl h0 =>
            exact Option.noConfusion h0
          | inr h0 =>
            exact absurd (of_decide_eq_true (by simpa [isFailureOutcome] using h0)) hl
        · intro t' ht' _ hspan
          injection ht' with hteq
          subst hteq
          rcases htmlMatch_isSome_of_span hspan with ⟨m, hm⟩
          obtain ⟨hd1, hd2, hd3⟩ := htmlMatch_some_delimited hm
          have heq2 : (GeminiClient.parseGeneratedCode t).html = ⟨m⟩ := by
            simp only [GeminiClient.parseGeneratedCode, hm]
          rw [heq2]
          constructor
          · exact hd1
          · have hlen : (String.mk m).data = m := rfl
            exact ⟨by rw [hlen]; omega, by rw [hlen]; exact hd3⟩

/-- Witness for the amended C1 at a concrete input (credential-missing path
with the Jane Doe profile). -/
theorem generateWebsite_html_delimited_witness :
    janeDoe.name ≠ ""
    ∧ ((GeminiClient.generateWebsite emptyEnv serverCtx janeDoe
          GeminiClient.ApiOutcome.noResponse).html ≠ ""
      ∧ ((GeminiClient.resolveApiKey emptyEnv = none
            ∨ isFailureOutcome GeminiClient.ApiOutcome.noResponse = true) →
          ciStartsWith (GeminiClient.generateWebsite emptyEnv serverCtx janeDoe
            GeminiClient.ApiOutcome.noResponse).html doctypeTag
          ∧ ciEndsWith (GeminiClient.generateWebsite emptyEnv serverCtx janeDoe
            GeminiClient.ApiOutcome.noResponse).html closeHtmlTag)
      ∧ (∀ t, GeminiClient.ApiOutcome.noResponse = GeminiClient.ApiOutcome.response t →
          isFailureOutcome GeminiClient.ApiOutcome.noResponse = false →
          hasDoctypeSpan t.data →
          ciStartsWith (GeminiClient.generateWebsite emptyEnv serverCtx janeDoe
            GeminiClient.ApiOutcome.noResponse).html doctypeTag
          ∧ ciEndsWith (GeminiClient.generateWebsite emptyEnv serverCtx janeDoe
            GeminiClient.ApiOutcome.noResponse).html closeHtmlTag)) :=
  ⟨by decide, generateWebsite_html_delimited emptyEnv serverCtx janeDoe
    GeminiClient.ApiOutcome.noResponse (by decide)⟩

/-- C5 counterexample: on a response containing no style and no script block,
the Gemini client's parsing routine returns `css = ""` and `js = ""` — empty
strings, not non-empty placeholder strings. -/
theorem gemini_parse_css_js_empty :
    ciFindFirst styleOpenPat noBlocksResponse.data = none
    ∧ ciFindFirst scriptOpenPat noBlocksResponse.data = none
    ∧ (GeminiClient.parseGeneratedCode noBlocksResponse).css = ""
    ∧ (GeminiClient.parseGeneratedCode noBlocksResponse).js = "" :=
  ⟨by decide, by decide, rfl, rfl⟩

/-- C5 (amended): for every response with no case-insensitive occurrence of
`<style` or `<script`, the API route's parsing routine returns the non-empty
placeholder comment strings for `css` and `js`, while the Gemini client's
parsing routine returns the empty string for both fields. -/
theorem parse_no_blocks_placeholders (text : String)
    (hs : ciFindFirst styleOpenPat text.data = none)
    (hj : ciFindFirst scriptOpenPat text.data = none) :
    (Route.parseGeneratedCode text).css = "/* CSS is embedded in the HTML file */"
    ∧ (Route.parseGeneratedCode text).js = "/* JavaScript is embedded in the HTML file */"
    ∧ (GeminiClient.parseGeneratedCode text).css = ""
    ∧ (GeminiClient.parseGeneratedCode text).js = "" := by
  cases hm : htmlMatch text.data with
  | none =>
    refine ⟨?_, ?_, rfl, rfl⟩ <;> simp only [Route.parseGeneratedCode, hm]
  | some m =>
    have hscanS : globalMatches styleOpenPat styleClosePat m = [] :=
      no_occ_globalMatches_nil (no_occ_in_match hm hs)
    have hscanJ : globalMatches scriptOpenPat scriptClosePat m = [] :=
      no_occ_globalMatches_nil (no_occ_in_match hm hj)
    refine ⟨?_, ?_, rfl, rfl⟩ <;>
      simp only [Route.parseGeneratedCode, hm, hscanS, hscanJ, List.map_nil, joinSep,
        if_pos]

/-- Witness for the amended C5 at a concrete no-blocks response. -/
theorem parse_no_blocks_placeholders_witness :
    ciFindFirst styleOpenPat noBlocksResponse.data = none
    ∧ ciFindFirst scriptOpenPat noBlocksResponse.data = none
    ∧ ((Route.parseGeneratedCode noBlocksResponse).css
        = "/* CSS is embedded in the HTML file */"
      ∧ (Route.parseGeneratedCode noBlocksResponse).js
        = "/* JavaScript is embedded in the HTML file */"
      ∧ (GeminiClient.parseGeneratedCode noBlocksResponse).css = ""
      ∧ (GeminiClient.parseGeneratedCode noBlocksResponse).js = "") :=
  ⟨by decide, by decide,
    parse_no_blocks_placeholders noBlocksResponse (by decide) (by decide)⟩

/-- C6: both parsing routines locate the doctype-to-closing-html span of the
response: when no span exists the entire raw response is the html verbatim;
when one exists, the html is the span starting at the first doctype
occurrence and — because the `[\s\S]*` of the pattern is greedy — extending
to the end of the last closing-html occurrence after it. -/
theorem parse_doctype_span (text : String) :
    (¬ hasDoctypeSpan text.data →
      (Route.parseGeneratedCode text).html = text
      ∧ (GeminiClient.parseGeneratedCode text).html = text)
    ∧ (hasDoctypeSpan text.data →
      ∃ i j, ciOccursAt doctypeTag text.data i
        ∧ (∀ p, p < i → ¬ ciOccursAt doctypeTag text.data p)
        ∧ ciOccursAt closeHtmlTag text.data j
        ∧ i + doctypeTag.length ≤ j
        ∧ (∀ q, i + doctypeTag.length ≤ q → ciOccursAt closeHtmlTag text.data q → q ≤ j)
        ∧ (Route.parseGeneratedCode text).html.data
            = (text.data.drop i).take (j + closeHtmlTag.length - i)
        ∧ (GeminiClient.parseGeneratedCode text).html.data
            = (text.data.drop i).take (j + closeHtmlTag.length - i)) := by
  constructor
  · intro hno
    have hm : htmlMatch text.data = none := htmlMatch_eq_none_of_not_span hno
    constructor
    · simp only [Route.parseGeneratedCode, hm]
    · simp only [GeminiClient.parseGeneratedCode, hm]
  · intro hspan
    rcases htmlMatch_isSome_of_span hspan with ⟨m, hm⟩
    rcases htmlMatch_some_spec hm with ⟨i, j, h1, h2, h3, h4, h5, h6⟩
    refine ⟨i, j, h1, h2, h3, h4, h5, ?_, ?_⟩
    · have heq2 : (Route.parseGeneratedCode text).html = ⟨m⟩ := by
        simp only [Route.parseGeneratedCode, hm]
      rw [heq2, ← h6]
    · have heq2 : (GeminiClient.parseGeneratedCode text).html = ⟨m⟩ := by
        simp only [GeminiClient.parseGeneratedCode, hm]
      rw [heq2, ← h6]

/-- Witness for C6 at a concrete response with a span surrounded by noise
(and, in the first component, the span-existence hypothesis discharged with
explicit indices). -/
theorem parse_doctype_span_witness :
    hasDoctypeSpan spannedResponse.data
    ∧ (∃ i j, ciOccursAt doctypeTag spannedResponse.data i
        ∧ (∀ p, p < i → ¬ ciOccursAt doctypeTag spannedResponse.data p)
        ∧ ciOccursAt closeHtmlTag spannedResponse.data j
        ∧ i + doctypeTag.length ≤ j
        ∧ (∀ q, i + doctypeTag.length ≤ q →
            ciOccursAt closeHtmlTag spannedResponse.data q → q ≤ j)
        ∧ (Route.parseGeneratedCode spannedResponse).html.data
            = (spannedResponse.data.drop i).take (j + closeHtmlTag.length - i)
        ∧ (GeminiClient.parseGeneratedCode spannedResponse).html.data
            = (spannedResponse.data.drop i).take (j + closeHtmlTag.length - i)) :=
  have hsp : hasDoctypeSpan spannedResponse.data :=
    ⟨5, 27, by decide, by decide, by decide⟩
  ⟨hsp, (parse_doctype_span spannedResponse).2 hsp⟩

/-- C4 counterexample: `emptyStyleResponse` contains exactly one
`<style>...</style>` block, whose inner text is the empty string, and one
script block; the parsed `css` is the placeholder comment, not the (empty)
inner text of the style block — the `cssCode || placeholder` fallback fires
whenever the concatenated stripped inner texts are empty. -/
theorem routeParse_empty_inner_counterexample :
    (Route.parseGeneratedCode emptyStyleResponse).css
      = "/* CSS is embedded in the HTML file */"
    ∧ (Route.parseGeneratedCode emptyStyleResponse).css ≠ "" := by
  constructor
  · decide
  · decide

/-- C4 (amended): for every response whose doctype span contains exactly one
plain `<style>...</style>` block with non-empty inner text `I` (the open
pattern occurring nowhere else, and the close-tag start occurring exactly at
the block's close tag) and exactly one plain `<script>...</script>` block
with non-empty inner text `J`, the route parser's `css` equals `I` and its
`js` equals `J` with the tags stripped away.  (The counterexample forces the
non-emptiness provisos: an empty inner text yields the placeholder comment
instead.) -/
theorem routeParse_extracts_single_blocks (text : String)
    (hd A I B A2 J B2 : List Char)
    (hm : htmlMatch text.data = some hd)
    (hdecS : hd = A ++ (styleOpenPat ++ ('>' :: (I ++ (styleClosePat ++ B)))))
    (hS1 : ∀ p, p < hd.length → (ciOccursAt styleOpenPat hd p ↔ p = A.length))
    (hS2 : ∀ p, p < hd.length →
      (ciOccursAt styleCloseStart hd p ↔ p = A.length + styleOpenPat.length + 1 + I.length))
    (hdecJ : hd = A2 ++ (scriptOpenPat ++ ('>' :: (J ++ (scriptClosePat ++ B2)))))
    (hJ1 : ∀ p, p < hd.length → (ciOccursAt scriptOpenPat hd p ↔ p = A2.length))
    (hJ2 : ∀ p, p < hd.length →
      (ciOccursAt scriptCloseStart hd p ↔ p = A2.length + scriptOpenPat.length + 1 + J.length))
    (hIne : I ≠ []) (hJne : J ≠ []) :
    (Route.parseGeneratedCode text).css = ⟨I⟩
    ∧ (Route.parseGeneratedCode text).js = ⟨J⟩ := by
  have hSeq : styleOpenPat = '<' :: styleTag := by decide
  have hScs : styleCloseStart = '<' :: '/' :: styleTag := by decide
  have hScp : styleClosePat = styleCloseStart ++ ['>'] := by decide
  have hSne : styleTag ≠ [] := by decide
  have hShd : ciEq '/' (styleTag.headD ' ') = false := by decide
  have hJeq : scriptOpenPat = '<' :: scriptTag := by decide
  have hJcs : scriptCloseStart = '<' :: '/' :: scriptTag := by decide
  have hJcp : scriptClosePat = scriptCloseStart ++ ['>'] := by decide
  have hJne2 : scriptTag ≠ [] := by decide
  have hJhd : ciEq '/' (scriptTag.headD ' ') = false := by decide
  have hscanS := scan_single_block hSeq hScs hScp hdecS hS1 hS2
  have hstripS := strip_single_block hSne hShd hSeq hScs hScp hdecS hS1 hS2
  have hscanJ := scan_single_block hJeq hJcs hJcp hdecJ hJ1 hJ2
  have hstripJ := strip_single_block hJne2 hJhd hJeq hJcs hJcp hdecJ hJ1 hJ2
  have hIne2 : (⟨I⟩ : String) ≠ "" := fun h => hIne (congrArg String.data h)
  have hJne3 : (⟨J⟩ : String) ≠ "" := fun h => hJne (congrArg String.data h)
  constructor
  · simp only [Route.parseGeneratedCode, hm, hscanS, List.map_cons, List.map_nil,
      hstripS, joinSep]
    rw [if_neg hIne2]
  · simp only [Route.parseGeneratedCode, hm, hscanJ, List.map_cons, List.map_nil,
      hstripJ, joinSep]
    rw [if_neg hJne3]

/-- Witness for the amended C4: the extraction on a concrete response with
one style and one script block, with every hypothesis discharged by
computation. -/
theorem routeParse_extracts_single_blocks_witness :
    (Route.parseGeneratedCode blocksResponse).css = "body: red"
    ∧ (Route.parseGeneratedCode blocksResponse).js = "f(2)" :=
  routeParse_extracts_single_blocks blocksResponse blocksResponse.data
    "<!DOCTYPE html><head>".data "body: red".data
    "</head><body><script>f(2)</script></body></html>".data
    "<!DOCTYPE html><head><style>body: red</style></head><body>".data "f(2)".data
    "</body></html>".data
    (by decide) (by decide) (by decide) (by decide) (by decide) (by decide) (by decide)
    (by decide) (by decide)

/-- C9 counterexample: with an empty work-history list, the Experience
section of the API route's prompt renders as nothing — the prompt contains
the header immediately followed by the Projects header — and in the Gemini
client's builder both the work-history and the education sections render as
nothing; no "none provided" placeholder line is produced for them. -/
theorem buildPrompt_empty_sections_render_nothing :
    Route.workHistoryText janeDoe.workHistory = ""
    ∧ strContains (Route.buildPrompt janeDoe) "Experience:\n\n\nProjects:"
    ∧ GeminiClient.workHistoryText janeDoe.workHistory = ""
    ∧ GeminiClient.educationText janeDoe.education = ""
    ∧ strContains (GeminiClient.buildPrompt janeDoe) "Educational Background:\n\n\n🎨" := by
  refine ⟨rfl, ?_, rfl, rfl, ?_⟩
  · unfold strContains Route.buildPrompt
    have h1 : janeDoe.name = "Jane Doe" := rfl
    have h2 : janeDoe.title = "Engineer" := rfl
    have h4 : janeDoe.workHistory = [] := rfl
    rw [h1, h2, h4]
    have h9 : Route.workHistoryText [] = "" := rfl
    rw [h9]
    simp only [String.data_append, List.append_assoc]
    simp only [List.nil_append]
    iterate 10 (apply infix_ext_left)
    rw [← List.append_assoc]
    apply infix_ext_right
    decide
  · unfold strContains GeminiClient.buildPrompt
    have h1 : janeDoe.name = "Jane Doe" := rfl
    have h2 : janeDoe.title = "Engineer" := rfl
    have h4 : janeDoe.workHistory = [] := rfl
    have h6 : janeDoe.education = [] := rfl
    rw [h1, h2, h4, h6]
    have h9 : GeminiClient.workHistoryText [] = "" := rfl
    have h11 : GeminiClient.educationText [] = "" := rfl
    rw [h9, h11]
    simp only [String.data_append, List.append_assoc]
    simp only [List.nil_append]
    iterate 11 (apply infix_ext_left)
    rw [← List.append_assoc]
    apply infix_ext_right
    decide

/-- C9 (amended): only the projects and education sections of the API route's
prompt builder, and the projects section of the Gemini client's builder,
degrade to "No ... provided yet." placeholder lines on empty lists; an empty
work-history list renders as nothing in both builders, and an empty education
list renders as nothing in the Gemini client's builder. -/
theorem buildPrompt_placeholders_amended (ud : UserFormData)
    (hw : ud.workHistory = []) (hp : ud.projects = []) (he : ud.education = []) :
    strContains (Route.buildPrompt ud) "No projects provided yet."
    ∧ strContains (Route.buildPrompt ud) "No education provided yet."
    ∧ strContains (GeminiClient.buildPrompt ud) "No projects provided yet."
    ∧ Route.workHistoryText ud.workHistory = ""
    ∧ GeminiClient.workHistoryText ud.workHistory = ""
    ∧ GeminiClient.educationText ud.education = "" := by
  have hpr : Route.projectsText [] = "No projects provided yet." := rfl
  have her : Route.educationText [] = "No education provided yet." := rfl
  have hpg : GeminiClient.projectsText [] = "No projects provided yet." := rfl
  have hwr : Route.workHistoryText [] = "" := rfl
  have hwg : GeminiClient.workHistoryText [] = "" := rfl
  have heg : GeminiClient.educationText [] = "" := rfl
  refine ⟨?_, ?_, ?_, by rw [hw]; exact hwr, by rw [hw]; exact hwg, by rw [he]; exact heg⟩
  · unfold strContains Route.buildPrompt
    rw [hw, hp, he, hwr, hpr, her]
    simp only [String.data_append, List.append_assoc]
    simp only [List.nil_append]
    iterate 12 (apply infix_ext_left)
    apply infix_ext_right
    exact List.infix_refl _
  · unfold strContains Route.buildPrompt
    rw [hw, hp, he, hwr, hpr, her]
    simp only [String.data_append, List.append_assoc]
    simp only [List.nil_append]
    iterate 14 (apply infix_ext_left)
    apply infix_ext_right
    exact List.infix_refl _
  · unfold strContains GeminiClient.buildPrompt
    rw [hw, hp, he, hwg, hpg, heg]
    simp only [String.data_append, List.append_assoc]
    simp only [List.nil_append]
    iterate 10 (apply infix_ext_left)
    apply infix_ext_right
    exact List.infix_refl _

/-- Witness for the amended C9 at the Jane Doe profile (all three lists
empty). -/
theorem buildPrompt_placeholders_amended_witness :
    janeDoe.workHistory = [] ∧ janeDoe.projects = [] ∧ janeDoe.education = []
    ∧ (strContains (Route.buildPrompt janeDoe) "No projects provided yet."
      ∧ strContains (Route.buildPrompt janeDoe) "No education provided yet."
      ∧ strContains (GeminiClient.buildPrompt janeDoe) "No projects provided yet."
      ∧ Route.workHistoryText janeDoe.workHistory = ""
      ∧ GeminiClient.workHistoryText janeDoe.workHistory = ""
      ∧ GeminiClient.educationText janeDoe.education = "") :=
  ⟨rfl, rfl, rfl, buildPrompt_placeholders_amended janeDoe rfl rfl rfl⟩

end PortfoliAI
